import Mathlib

/-!
Verification development for the Twitch developer hub server.

The development shallowly embeds the OAuth token lifecycle orchestrator of the
repository: the symmetric secret codec (`src/server/src/utils/encryption.ts`),
the identity-provider client (`twitchApiService`), the token flow controller
(`savedTokenController`), and the webhook reconciliation engine
(`webhookController.syncWebhooks`).

JavaScript strings are modelled as `List Char`, byte buffers as `List Nat`,
database rows as Lean structures, and every HTTP call to the identity provider
as an explicit input describing the provider's response.  Randomness
(`crypto.randomBytes`) and clocks (`Date.now()`) are threaded as explicit
arguments.
-/

/-! ## Symmetric secret codec (`src/server/src/utils/encryption.ts`)

The codec derives a per-call key with PBKDF2 from `ENCRYPTION_KEY` and a fresh
random salt, encrypts with AES-256-GCM under a fresh random IV, and stores
`salt:iv:tag:encrypted` with each region hex encoded.  PBKDF2 and AES-256-GCM
are external library primitives (`node:crypto`); they are modelled as an ideal
AEAD: key derivation is a deterministic injective combination of master secret
and salt, encryption is an injective invertible encoding, and the GCM
authentication tag binds key, IV and ciphertext exactly.  The surrounding
structure (random salt and IV per call, the four-region colon format, the
parse check, tag verification before any plaintext is released, and the
missing-`ENCRYPTION_KEY` failure) is translated from the source.
-/

/-- Errors of the secret codec: `ENCRYPTION_KEY` missing from the environment,
a stored string that does not split into exactly four colon regions, and a
failed AEAD authentication (tamper or corruption). -/
inductive CryptoError where
  | misconfigured
  | invalidFormat
  | authFailed
deriving DecidableEq

/-- Hex digit characters, as produced by `Buffer.toString('hex')`. -/
def hexChar : Nat → Char
  | 0 => '0'
  | 1 => '1'
  | 2 => '2'
  | 3 => '3'
  | 4 => '4'
  | 5 => '5'
  | 6 => '6'
  | 7 => '7'
  | 8 => '8'
  | 9 => '9'
  | 10 => 'a'
  | 11 => 'b'
  | 12 => 'c'
  | 13 => 'd'
  | 14 => 'e'
  | _ => 'f'

/-- Two-digit hex encoding of one byte. -/
def byteToHex (b : Nat) : List Char :=
  [hexChar (b / 16), hexChar (b % 16)]

/-- Hex encoding of a byte buffer (`Buffer.toString('hex')`). -/
def bytesToHex (l : List Nat) : List Char :=
  l.flatMap byteToHex

/-- Ideal-cipher encoding of a plaintext: an injective, invertible,
colon-free encoding standing in for AES-256-GCM encryption followed by hex
encoding.  The escape character keeps the output free of the colon used as
the region delimiter. -/
def escChar (c : Char) : List Char :=
  if c = ':' then ['!', 'c'] else if c = '!' then ['!', 'b'] else [c]

/-- Encoding of a whole plaintext, see `escChar`. -/
def cipherEncode (s : List Char) : List Char :=
  s.flatMap escChar

/-- Inverse of `cipherEncode`; `none` on byte sequences that are not a valid
encoding (a real GCM decryption of such data would fail authentication). -/
def cipherDecode : List Char → Option (List Char)
  | [] => some []
  | [c] => if c = '!' then none else some [c]
  | c :: d :: rest =>
    if c = '!' then
      if d = 'c' then (cipherDecode rest).map (fun t => ':' :: t)
      else if d = 'b' then (cipherDecode rest).map (fun t => '!' :: t)
      else none
    else (cipherDecode (d :: rest)).map (fun t => c :: t)

/-- Join regions with the colon delimiter, as the template string
`salt:iv:tag:encrypted` does. -/
def joinColon : List (List Char) → List Char
  | [] => []
  | [p] => p
  | p :: ps => p ++ ':' :: joinColon ps

/-- One step of `String.prototype.split(':')`: prepend a character to the
first piece. -/
def consHead (c : Char) : List (List Char) → List (List Char)
  | [] => [[c]]
  | p :: ps => (c :: p) :: ps

/-- JavaScript `encryptedData.split(':')`. -/
def splitOnColon : List Char → List (List Char)
  | [] => [[]]
  | c :: rest =>
    if c = ':' then [] :: splitOnColon rest else consHead c (splitOnColon rest)

/-- A string that contains no colon, hence survives `split(':')` as one
piece. -/
def ColonFree (l : List Char) : Prop := ∀ c ∈ l, c ≠ ':'

instance (l : List Char) : Decidable (ColonFree l) := by
  unfold ColonFree; infer_instance

/-- Key derivation (`getKey`): PBKDF2 of the master secret and the salt.  The
external PBKDF2 call is modelled as an ideal deterministic KDF, injective in
the pair of master secret and salt; it fails fast when `ENCRYPTION_KEY` is
absent. -/
def getKey (encryptionKey : Option (List Char)) (saltHex : List Char) :
    Except CryptoError (List Char) :=
  match encryptionKey with
  | none => Except.error CryptoError.misconfigured
  | some master => Except.ok (cipherEncode master ++ saltHex)

/-- The GCM authentication tag, modelled as an ideal MAC that binds key, IV
and ciphertext exactly. -/
def macTag (key ivHex ct : List Char) : List Char :=
  key ++ ivHex ++ ct

/-- The `encrypt` function: fresh random `salt` and `iv` are passed in
explicitly (the source draws them from `crypto.randomBytes` on every call),
the per-call key is derived from the master secret and the salt, and the
output is `salt:iv:tag:encrypted`. -/
def encrypt (encryptionKey : Option (List Char)) (salt iv : List Nat)
    (text : List Char) : Except CryptoError (List Char) :=
  let saltHex := bytesToHex salt
  match getKey encryptionKey saltHex with
  | Except.error e => Except.error e
  | Except.ok key =>
    let ivHex := bytesToHex iv
    let ct := cipherEncode text
    let tag := macTag key ivHex ct
    Except.ok (joinColon [saltHex, ivHex, tag, ct])

/-- The `decrypt` function: split on the colon, require exactly four regions,
re-derive the key from the stored salt, verify the authentication tag and
only then release the plaintext. -/
def decrypt (encryptionKey : Option (List Char)) (encryptedData : List Char) :
    Except CryptoError (List Char) :=
  match splitOnColon encryptedData with
  | [saltHex, ivHex, tag, ct] =>
    match getKey encryptionKey saltHex with
    | Except.error e => Except.error e
    | Except.ok key =>
      if tag = macTag key ivHex ct then
        match cipherDecode ct with
        | some text => Except.ok text
        | none => Except.error CryptoError.authFailed
      else Except.error CryptoError.authFailed
  | _ => Except.error CryptoError.invalidFormat

theorem hexChar_ne_colon (n : Nat) : hexChar n ≠ ':' := by
  unfold hexChar; split <;> decide

theorem hexChar_inj : ∀ a < 16, ∀ b < 16, hexChar a = hexChar b → a = b := by
  decide

theorem colonFree_bytesToHex (l : List Nat) : ColonFree (bytesToHex l) := by
  intro c hc
  rcases List.mem_flatMap.mp hc with ⟨b, _, hb⟩
  unfold byteToHex at hb
  simp only [List.mem_cons, List.mem_singleton, List.not_mem_nil, or_false] at hb
  rcases hb with h | h <;> rw [h] <;> exact hexChar_ne_colon _

theorem colonFree_append {a b : List Char} (ha : ColonFree a) (hb : ColonFree b) :
    ColonFree (a ++ b) := by
  intro c hc
  rcases List.mem_append.mp hc with h | h
  · exact ha c h
  · exact hb c h

theorem colonFree_cipherEncode (s : List Char) : ColonFree (cipherEncode s) := by
  intro c hc
  rcases List.mem_flatMap.mp hc with ⟨x, _, hx⟩
  unfold escChar at hx
  split_ifs at hx with h1 h2
  · simp only [List.mem_cons, List.mem_singleton, List.not_mem_nil, or_false] at hx
    rcases hx with h | h <;> rw [h] <;> decide
  · simp only [List.mem_cons, List.mem_singleton, List.not_mem_nil, or_false] at hx
    rcases hx with h | h <;> rw [h] <;> decide
  · simp only [List.mem_singleton] at hx
    rw [hx]; exact h1

theorem byteToHex_inj {a b : Nat} (ha : a < 256) (hb : b < 256)
    (h : byteToHex a = byteToHex b) : a = b := by
  unfold byteToHex at h
  have h1 : hexChar (a / 16) = hexChar (b / 16) := by
    exact List.head_eq_of_cons_eq h
  have h2 : hexChar (a % 16) = hexChar (b % 16) := by
    have := List.tail_eq_of_cons_eq h
    exact List.head_eq_of_cons_eq this
  have hd : a / 16 = b / 16 :=
    hexChar_inj _ (Nat.div_lt_of_lt_mul (by omega)) _ (Nat.div_lt_of_lt_mul (by omega)) h1
  have hm : a % 16 = b % 16 :=
    hexChar_inj _ (Nat.mod_lt _ (by omega)) _ (Nat.mod_lt _ (by omega)) h2
  omega

theorem bytesToHex_inj : ∀ {l1 l2 : List Nat}, (∀ b ∈ l1, b < 256) →
    (∀ b ∈ l2, b < 256) → bytesToHex l1 = bytesToHex l2 → l1 = l2 := by
  intro l1
  induction l1 with
  | nil =>
    intro l2 _ _ h
    cases l2 with
    | nil => rfl
    | cons b t => simp [bytesToHex, byteToHex] at h
  | cons a t ih =>
    intro l2 h1 h2 h
    cases l2 with
    | nil => simp [bytesToHex, byteToHex] at h
    | cons b t2 =>
      simp only [bytesToHex, List.flatMap_cons] at h
      have hlen : (byteToHex a).length = 2 := rfl
      have hlen2 : (byteToHex b).length = 2 := rfl
      have heq := List.append_inj h (by rw [hlen, hlen2])
      have hab : a = b :=
        byteToHex_inj (h1 a (List.mem_cons_self a t)) (h2 b (List.mem_cons_self b t2)) heq.1
      have ht : t = t2 :=
        ih (fun x hx => h1 x (List.mem_cons_of_mem _ hx))
          (fun x hx => h2 x (List.mem_cons_of_mem _ hx)) heq.2
      rw [hab, ht]

theorem cipherDecode_cipherEncode (s : List Char) :
    cipherDecode (cipherEncode s) = some s := by
  induction s with
  | nil => rfl
  | cons c t ih =>
    show cipherDecode (escChar c ++ cipherEncode t) = some (c :: t)
    by_cases h1 : c = ':'
    · simp only [escChar, h1, if_pos rfl]
      show cipherDecode ('!' :: 'c' :: cipherEncode t) = some (':' :: t)
      simp [cipherDecode, ih]
    · by_cases h2 : c = '!'
      · simp only [escChar, if_neg h1, h2, if_pos rfl]
        show cipherDecode ('!' :: 'b' :: cipherEncode t) = some ('!' :: t)
        simp [cipherDecode, ih]
      · simp only [escChar, if_neg h1, if_neg h2, List.singleton_append]
        cases he : cipherEncode t with
        | nil =>
          rw [he] at ih
          have : t = [] := by
            have := ih
            simp [cipherDecode] at this
            exact this
          simp [cipherDecode, h2, this]
        | cons d rest =>
          rw [he] at ih
          show cipherDecode (c :: d :: rest) = some (c :: t)
          simp [cipherDecode, h2, ih]

theorem splitOnColon_colonFree {a : List Char} (h : ColonFree a) :
    splitOnColon a = [a] := by
  induction a with
  | nil => rfl
  | cons c t ih =>
    have hc : c ≠ ':' := h c (List.mem_cons_self c t)
    have ht : ColonFree t := fun x hx => h x (List.mem_cons_of_mem _ hx)
    simp [splitOnColon, if_neg hc, ih ht, consHead]

theorem splitOnColon_append {a : List Char} (l : List Char) (h : ColonFree a) :
    splitOnColon (a ++ ':' :: l) = a :: splitOnColon l := by
  induction a with
  | nil => simp [splitOnColon]
  | cons c t ih =>
    have hc : c ≠ ':' := h c (List.mem_cons_self c t)
    have ht : ColonFree t := fun x hx => h x (List.mem_cons_of_mem _ hx)
    show splitOnColon (c :: (t ++ ':' :: l)) = (c :: t) :: splitOnColon l
    simp only [splitOnColon, if_neg hc]
    rw [ih ht]
    rfl

theorem splitOnColon_joinColon_four {a b c d : List Char}
    (ha : ColonFree a) (hb : ColonFree b) (hc : ColonFree c) (hd : ColonFree d) :
    splitOnColon (joinColon [a, b, c, d]) = [a, b, c, d] := by
  show splitOnColon (a ++ ':' :: (b ++ ':' :: (c ++ ':' :: d))) = [a, b, c, d]
  rw [splitOnColon_append _ ha, splitOnColon_append _ hb, splitOnColon_append _ hc,
    splitOnColon_colonFree hd]

theorem macTag_ct_inj {k i a b : List Char} (h : macTag k i a = macTag k i b) :
    a = b := by
  simp only [macTag, List.append_assoc] at h
  exact List.append_cancel_left (List.append_cancel_left h)

theorem colonFree_macTag {master : List Char} {salt iv : List Nat} {ct : List Char}
    (hct : ColonFree ct) :
    ColonFree (macTag (cipherEncode master ++ bytesToHex salt) (bytesToHex iv) ct) := by
  unfold macTag
  exact colonFree_append
    (colonFree_append
      (colonFree_append (colonFree_cipherEncode master) (colonFree_bytesToHex salt))
      (colonFree_bytesToHex iv)) hct

/-- C7: for every string `s`, `decrypt(encrypt(s)) = s`; and `encrypt` is
randomized — it draws a fresh random salt (and nonce) on every call, so two
calls whose random salts differ produce two different opaque outputs. -/
theorem encrypt_decrypt_roundtrip_and_randomized :
    (∀ (master : List Char) (salt iv : List Nat) (text stored : List Char),
      encrypt (some master) salt iv text = Except.ok stored →
      decrypt (some master) stored = Except.ok text) ∧
    (∀ (master : List Char) (s1 s2 i1 i2 : List Nat) (text : List Char),
      (∀ b ∈ s1, b < 256) → (∀ b ∈ s2, b < 256) → s1 ≠ s2 →
      encrypt (some master) s1 i1 text ≠ encrypt (some master) s2 i2 text) := by
  constructor
  · intro master salt iv text stored h
    have hstored : stored = joinColon [bytesToHex salt, bytesToHex iv,
        macTag (cipherEncode master ++ bytesToHex salt) (bytesToHex iv) (cipherEncode text),
        cipherEncode text] := by
      have := h.symm
      simpa [encrypt, getKey] using this
    subst hstored
    have htagfree : ColonFree (macTag (cipherEncode master ++ bytesToHex salt)
        (bytesToHex iv) (cipherEncode text)) := colonFree_macTag (colonFree_cipherEncode text)
    have hsplit := splitOnColon_joinColon_four (colonFree_bytesToHex salt)
      (colonFree_bytesToHex iv) htagfree (colonFree_cipherEncode text)
    unfold decrypt
    rw [hsplit]
    simp [getKey, cipherDecode_cipherEncode]
  · intro master s1 s2 i1 i2 text h1 h2 hne heq
    have hj : joinColon [bytesToHex s1, bytesToHex i1,
        macTag (cipherEncode master ++ bytesToHex s1) (bytesToHex i1) (cipherEncode text),
        cipherEncode text] = joinColon [bytesToHex s2, bytesToHex i2,
        macTag (cipherEncode master ++ bytesToHex s2) (bytesToHex i2) (cipherEncode text),
        cipherEncode text] := by
      simpa [encrypt, getKey] using heq
    have htf1 : ColonFree (macTag (cipherEncode master ++ bytesToHex s1)
        (bytesToHex i1) (cipherEncode text)) := colonFree_macTag (colonFree_cipherEncode text)
    have htf2 : ColonFree (macTag (cipherEncode master ++ bytesToHex s2)
        (bytesToHex i2) (cipherEncode text)) := colonFree_macTag (colonFree_cipherEncode text)
    have hs := congrArg splitOnColon hj
    rw [splitOnColon_joinColon_four (colonFree_bytesToHex s1) (colonFree_bytesToHex i1)
        htf1 (colonFree_cipherEncode text),
      splitOnColon_joinColon_four (colonFree_bytesToHex s2) (colonFree_bytesToHex i2)
        htf2 (colonFree_cipherEncode text)] at hs
    have hsalt : bytesToHex s1 = bytesToHex s2 := by
      injection hs with hh _
    exact hne (bytesToHex_inj h1 h2 hsalt)

/-- Evaluation of C7 at concrete inputs: the round trip recovers the
plaintext, and two encryptions of the same plaintext under different random
salts differ. -/
theorem c7_roundtrip_witness :
    decrypt (some ['k']) (joinColon [bytesToHex [1], bytesToHex [2],
      macTag (cipherEncode ['k'] ++ bytesToHex [1]) (bytesToHex [2])
        (cipherEncode ['h', 'i']), cipherEncode ['h', 'i']]) = Except.ok ['h', 'i'] ∧
    encrypt (some ['k']) [0] [1] ['h'] ≠ encrypt (some ['k']) [3] [1] ['h'] := by
  constructor
  · exact encrypt_decrypt_roundtrip_and_randomized.1 ['k'] [1] [2] ['h', 'i'] _ rfl
  · exact encrypt_decrypt_roundtrip_and_randomized.2 ['k'] [0] [3] [1] [1] ['h']
      (by decide) (by decide) (by decide)

/-- C8: decrypt fails, and never returns altered plaintext, when the stored
string does not split into exactly four colon-delimited regions, and when the
ciphertext or tag region of a genuine encryption has been modified so that
the authentication tag no longer verifies.  The second conjunct records the
shape of a genuine encryption, so the tampered inputs of the later conjuncts
differ from it exactly in the ciphertext or tag region. -/
theorem decrypt_rejects_malformed_and_tampered :
    (∀ (key : Option (List Char)) (s : List Char),
      (splitOnColon s).length ≠ 4 →
      decrypt key s = Except.error CryptoError.invalidFormat) ∧
    (∀ (master : List Char) (salt iv : List Nat) (text : List Char),
      encrypt (some master) salt iv text = Except.ok (joinColon
        [bytesToHex salt, bytesToHex iv,
         macTag (cipherEncode master ++ bytesToHex salt) (bytesToHex iv) (cipherEncode text),
         cipherEncode text])) ∧
    (∀ (master : List Char) (salt iv : List Nat) (text ct2 : List Char),
      ColonFree ct2 → ct2 ≠ cipherEncode text →
      decrypt (some master) (joinColon [bytesToHex salt, bytesToHex iv,
        macTag (cipherEncode master ++ bytesToHex salt) (bytesToHex iv) (cipherEncode text),
        ct2]) = Except.error CryptoError.authFailed) ∧
    (∀ (master : List Char) (salt iv : List Nat) (text tag2 : List Char),
      ColonFree tag2 →
      tag2 ≠ macTag (cipherEncode master ++ bytesToHex salt) (bytesToHex iv)
        (cipherEncode text) →
      decrypt (some master) (joinColon [bytesToHex salt, bytesToHex iv, tag2,
        cipherEncode text]) = Except.error CryptoError.authFailed) := by
  refine ⟨?_, ?_, ?_, ?_⟩
  · intro key s h
    unfold decrypt
    split
    · next a b c d heq => exact absurd (by rw [heq]; rfl) h
    · rfl
  · intro master salt iv text
    rfl
  · intro master salt iv text ct2 hfree hne
    have htagfree : ColonFree (macTag (cipherEncode master ++ bytesToHex salt)
        (bytesToHex iv) (cipherEncode text)) := colonFree_macTag (colonFree_cipherEncode text)
    have hsplit := splitOnColon_joinColon_four (colonFree_bytesToHex salt)
      (colonFree_bytesToHex iv) htagfree hfree
    unfold decrypt
    rw [hsplit]
    simp only [getKey]
    rw [if_neg (fun hcontra => hne (macTag_ct_inj hcontra).symm)]
  · intro master salt iv text tag2 hfree hne
    have hsplit := splitOnColon_joinColon_four (colonFree_bytesToHex salt)
      (colonFree_bytesToHex iv) hfree (colonFree_cipherEncode text)
    unfold decrypt
    rw [hsplit]
    simp only [getKey]
    rw [if_neg hne]

/-- Evaluation of C8 at concrete inputs: a two-region string is rejected as
malformed; replacing the ciphertext region or the tag region of a genuine
encryption is rejected as tampering. -/
theorem c8_tamper_witness :
    decrypt (some ['k']) ['a', 'b'] = Except.error CryptoError.invalidFormat ∧
    decrypt (some ['k']) (joinColon [bytesToHex [1], bytesToHex [2],
      macTag (cipherEncode ['k'] ++ bytesToHex [1]) (bytesToHex [2]) (cipherEncode ['h']),
      ['z']]) = Except.error CryptoError.authFailed ∧
    decrypt (some ['k']) (joinColon [bytesToHex [1], bytesToHex [2], ['z'],
      cipherEncode ['h']]) = Except.error CryptoError.authFailed := by
  refine ⟨?_, ?_, ?_⟩
  · exact decrypt_rejects_malformed_and_tampered.1 (some ['k']) ['a', 'b'] (by decide)
  · exact decrypt_rejects_malformed_and_tampered.2.2.1 ['k'] [1] [2] ['h'] ['z']
      (by decide) (by decide)
  · exact decrypt_rejects_malformed_and_tampered.2.2.2 ['k'] [1] [2] ['h'] ['z']
      (by decide) (by decide)

/-! ## Identity provider client (`src/server/src/services/twitchApiService.ts`)

Each wrapper is a stateless function of the provider's HTTP response, which is
passed in explicitly.  Provider error classification follows the source:
`pollDeviceToken` inspects `error.response.status` and
`error.response.data.message || error.response.data.error`.
-/

/-- The JSON `scope` field of a token response: an array, a string, or
absent — the source handles all three. -/
inductive ScopeField where
  | arr (scopes : List String)
  | str (s : String)
  | missing
deriving DecidableEq

/-- JavaScript truthiness on an optional string: `undefined`, `null` and the
empty string are falsy. -/
def jsTruthy (a : Option String) : Option String :=
  match a with
  | some s => if s = "" then none else some s
  | none => none

/-- JavaScript `a || b` on optional strings. -/
def jsStrOr (a b : Option String) : Option String :=
  match jsTruthy a with
  | some s => some s
  | none => jsTruthy b

/-- Scope list extraction:
`Array.isArray(scope) ? scope : (scope ? scope.split(' ') : [])`. -/
def parseScopes (f : ScopeField) : List String :=
  match f with
  | ScopeField.arr l => l
  | ScopeField.str s => if s = "" then [] else s.splitOn (" ")
  | ScopeField.missing => []

/-- A successful token-endpoint JSON body. -/
structure DeviceTokenBody where
  access_token : String
  refresh_token : String
  expires_in : Nat
  scope : ScopeField
deriving DecidableEq

/-- The provider's reply to the device-poll POST: a 2xx body, an HTTP error
response with status and JSON `message`/`error` fields, or a transport
failure with no response at all. -/
inductive DeviceHttpReply where
  | success (data : DeviceTokenBody)
  | httpError (status : Nat) (message errorField : Option String)
  | networkFailure
deriving DecidableEq

/-- The common token-result shape returned by the grant wrappers. -/
structure TokenData where
  accessToken : String
  refreshToken : String
  expiresIn : Nat
  scopes : List String
deriving DecidableEq

/-- Message of the `authorization_pending` provider outcome. -/
def authorizationPendingMsg : String := "authorization_pending"

/-- Message of the `access_denied` provider outcome. -/
def accessDeniedMsg : String := "access_denied"

/-- Message of the `expired_token` provider outcome. -/
def expiredTokenMsg : String := "expired_token"

/-- Message of the `slow_down` provider outcome. -/
def slowDownMsg : String := "slow_down"

/-- Generic failure message of `pollDeviceToken`. -/
def failedPollMsg : String := "Failed to poll for device token"

/-- Thrown message of a failed `validateToken` call. -/
def invalidTokenMsg : String := "Invalid or expired token"

/-- The `pollDeviceToken` wrapper: `Except.error m` models a thrown
`Error(m)`, `Except.ok none` models the `null` still-pending result. -/
def pollDeviceToken (reply : DeviceHttpReply) : Except String (Option TokenData) :=
  match reply with
  | DeviceHttpReply.success d =>
    Except.ok (some
      { accessToken := d.access_token
        refreshToken := d.refresh_token
        expiresIn := d.expires_in
        scopes := parseScopes d.scope })
  | DeviceHttpReply.networkFailure => Except.error failedPollMsg
  | DeviceHttpReply.httpError status message errorField =>
    if status = 400 then
      let errorType := jsStrOr message errorField
      if errorType = some authorizationPendingMsg then Except.ok none
      else if errorType = some accessDeniedMsg then Except.error accessDeniedMsg
      else if errorType = some expiredTokenMsg then Except.error expiredTokenMsg
      else if errorType = some slowDownMsg then Except.ok none
      else Except.error failedPollMsg
    else Except.error failedPollMsg

/-- Result of the `validateToken` wrapper (`https://id.twitch.tv/oauth2/validate`). -/
structure ValidationBody where
  clientId : String
  login : Option String
  scopes : List String
  userId : Option String
  expiresIn : Nat
deriving DecidableEq

/-! ## Data model (Prisma rows used by the orchestrator) -/

/-- A `twitchConfig` row: a CredentialSet.  `clientSecret` is stored
encrypted. -/
structure TwitchConfig where
  id : Nat
  userId : Nat
  clientId : String
  clientSecret : String
  name : Option String
deriving DecidableEq

/-- A `savedToken` row: a TokenRecord.  `accessToken` and `refreshToken` are
stored encrypted; timestamps are in milliseconds. -/
structure SavedToken where
  id : Nat
  userId : Nat
  twitchConfigId : Nat
  tokenType : String
  accessToken : String
  refreshToken : Option String
  scopes : List String
  channelLogin : Option String
  channelId : Option String
  name : Option String
  expiresAt : Option Nat
  createdAt : Nat
  updatedAt : Nat
deriving DecidableEq

/-- The relational store as seen by the token controller. -/
structure Db where
  configs : List TwitchConfig
  tokens : List SavedToken
deriving DecidableEq

/-- `prisma.twitchConfig.findUnique({where: {id}})`. -/
def findConfig (db : Db) (id : Nat) : Option TwitchConfig :=
  db.configs.find? (fun c => c.id == id)

/-- `prisma.savedToken.findUnique({where: {id}})`. -/
def findSavedToken (db : Db) (id : Nat) : Option SavedToken :=
  db.tokens.find? (fun t => t.id == id)

/-- The `user` token kind. -/
def userKind : String := "user"

/-- The `app` token kind. -/
def appKind : String := "app"

/-! ## Token flow controller (`savedTokenController.ts`)

Each handler is modelled as a pure function of the request parameters, the
database, and the outcomes of the outbound provider calls; it returns the
response outcome together with the database after the request.  Handlers are
modelled for requests that already passed the `express-validator` check.  The
`encrypt`/`decrypt` utilities are closures over the process environment and
the random source, so they are threaded as oracles `enc`/`dec` of type
`String → String`. -/

/-- Response of `pollUserToken`, with its HTTP status. -/
inductive PollOutcome where
  | notFound
  | forbidden
  | pending
  | success (token : SavedToken)
  | denied
  | expired
  | serverError (msg : String)
deriving DecidableEq

/-- HTTP status code of each `pollUserToken` response. -/
def PollOutcome.status : PollOutcome → Nat
  | PollOutcome.notFound => 404
  | PollOutcome.forbidden => 403
  | PollOutcome.pending => 200
  | PollOutcome.success _ => 201
  | PollOutcome.denied => 403
  | PollOutcome.expired => 400
  | PollOutcome.serverError _ => 500

/-- Per-request environment of one `pollUserToken` invocation: the provider's
reply to the poll, the `validateToken` result (`none` models a throw), the
clock, the encryption oracle, and the row id the store will assign. -/
structure PollEnv where
  providerReply : DeviceHttpReply
  validation : Option ValidationBody
  nowMs : Nat
  enc : String → String
  newId : Nat

/-- The `user`-kind TokenRecord persisted by a successful device-flow poll
(also by the authorization-code callback, which shares this shape). -/
def mkUserToken (userId twitchConfigId : Nat) (name : Option String)
    (env : PollEnv) (tokenData : TokenData) (validation : ValidationBody) :
    SavedToken :=
  { id := env.newId
    userId := userId
    twitchConfigId := twitchConfigId
    tokenType := userKind
    accessToken := env.enc tokenData.accessToken
    refreshToken := some (env.enc tokenData.refreshToken)
    scopes := tokenData.scopes
    channelLogin := validation.login
    channelId := validation.userId
    name := jsTruthy name
    expiresAt := some (env.nowMs + tokenData.expiresIn * 1000)
    createdAt := env.nowMs
    updatedAt := env.nowMs }

/-- The `pollUserToken` handler: config lookup (404), ownership check (403),
provider poll, then either `pending` with no state change, a mapped device
flow error, or validation plus creation of exactly one `user`-kind record. -/
def pollUserToken (userId twitchConfigId : Nat) (name : Option String)
    (env : PollEnv) (db : Db) : PollOutcome × Db :=
  match findConfig db twitchConfigId with
  | none => (PollOutcome.notFound, db)
  | some cfg =>
    if cfg.userId ≠ userId then (PollOutcome.forbidden, db)
    else
      match pollDeviceToken env.providerReply with
      | Except.error msg =>
        if msg = accessDeniedMsg then (PollOutcome.denied, db)
        else if msg = expiredTokenMsg then (PollOutcome.expired, db)
        else (PollOutcome.serverError msg, db)
      | Except.ok none => (PollOutcome.pending, db)
      | Except.ok (some tokenData) =>
        match env.validation with
        | none => (PollOutcome.serverError invalidTokenMsg, db)
        | some validation =>
          let savedToken := mkUserToken userId twitchConfigId name env tokenData validation
          (PollOutcome.success savedToken, { db with tokens := db.tokens ++ [savedToken] })

/-- The device-flow session descriptor returned by `startDeviceFlow`. -/
structure DeviceFlowData where
  deviceCode : String
  userCode : String
  verificationUri : String
  expiresIn : Nat
  interval : Nat
deriving DecidableEq

/-- Response of `startUserToken`. -/
inductive StartOutcome where
  | notFound
  | forbidden
  | started (d : DeviceFlowData)
  | serverError
deriving DecidableEq

/-- HTTP status code of each `startUserToken` response. -/
def StartOutcome.status : StartOutcome → Nat
  | StartOutcome.notFound => 404
  | StartOutcome.forbidden => 403
  | StartOutcome.started _ => 200
  | StartOutcome.serverError => 500

/-- The `startUserToken` handler: it validates the config and relays the
provider's session descriptor verbatim; nothing is persisted. -/
def startUserToken (userId twitchConfigId : Nat)
    (flowReply : Option DeviceFlowData) (db : Db) : StartOutcome × Db :=
  match findConfig db twitchConfigId with
  | none => (StartOutcome.notFound, db)
  | some cfg =>
    if cfg.userId ≠ userId then (StartOutcome.forbidden, db)
    else
      match flowReply with
      | none => (StartOutcome.serverError, db)
      | some d => (StartOutcome.started d, db)

/-- A sequence of poll requests for the same config, threading the database:
the caller owns the polling cadence and repeatedly invokes the handler. -/
def runPolls (userId twitchConfigId : Nat) (name : Option String)
    (envs : List PollEnv) (db : Db) : Db :=
  match envs with
  | [] => db
  | e :: rest =>
    runPolls userId twitchConfigId name rest (pollUserToken userId twitchConfigId name e db).2

/-- Per-request environment of one `refreshToken` invocation: the
`refreshAccessToken` result (`none` models a throw), the clock, and the
encryption and decryption oracles. -/
structure RefreshEnv where
  refreshReply : Option TokenData
  nowMs : Nat
  enc : String → String
  dec : String → String

/-- Response of the `refreshToken` handler. -/
inductive RefreshOutcome where
  | notFound
  | forbidden
  | notRefreshable
  | serverError
  | refreshed (token : SavedToken)
deriving DecidableEq

/-- HTTP status code of each `refreshToken` response. -/
def RefreshOutcome.status : RefreshOutcome → Nat
  | RefreshOutcome.notFound => 404
  | RefreshOutcome.forbidden => 403
  | RefreshOutcome.notRefreshable => 400
  | RefreshOutcome.serverError => 500
  | RefreshOutcome.refreshed _ => 200

/-- Field overwrite applied to the refreshed row, from
`prisma.savedToken.update`: access secret, refresh secret, scopes and expiry
are replaced in one update; identity and the other fields are untouched. -/
def applyRefresh (id : Nat) (env : RefreshEnv) (newTokenData : TokenData)
    (t : SavedToken) : SavedToken :=
  if t.id = id then
    { t with
      accessToken := env.enc newTokenData.accessToken
      refreshToken := some (env.enc newTokenData.refreshToken)
      scopes := newTokenData.scopes
      expiresAt := some (env.nowMs + newTokenData.expiresIn * 1000)
      updatedAt := env.nowMs }
  else t

/-- The `refreshToken` handler (the Twitch token refresh, not the session
refresh): row lookup (404), ownership (403), the `user`-kind plus
refresh-secret guard (400, `NotRefreshable`), then `refreshAccessToken` and a
single in-place update of the same row.  The row's `twitchConfig` relation is
resolved through the foreign key; a dangling foreign key cannot occur under
the store's referential integrity and is mapped to the generic error. -/
def refreshSavedToken (userId id : Nat) (env : RefreshEnv) (db : Db) :
    RefreshOutcome × Db :=
  match findSavedToken db id with
  | none => (RefreshOutcome.notFound, db)
  | some token =>
    if token.userId ≠ userId then (RefreshOutcome.forbidden, db)
    else if token.tokenType ≠ userKind ∨ jsTruthy token.refreshToken = none then
      (RefreshOutcome.notRefreshable, db)
    else
      match findConfig db token.twitchConfigId with
      | none => (RefreshOutcome.serverError, db)
      | some _ =>
        match env.refreshReply with
        | none => (RefreshOutcome.serverError, db)
        | some newTokenData =>
          (RefreshOutcome.refreshed (applyRefresh id env newTokenData token),
            { db with tokens := db.tokens.map (applyRefresh id env newTokenData) })

/-- The `twitchConfig` relation as selected into token responses
(`select {id, clientId, name}`). -/
structure ConfigRef where
  id : Nat
  clientId : String
  name : Option String
deriving DecidableEq

/-- Lookup of the selected relation fields for a token row. -/
def configRefOf (db : Db) (t : SavedToken) : Option ConfigRef :=
  (findConfig db t.twitchConfigId).map (fun c =>
    { id := c.id, clientId := c.clientId, name := c.name })

/-- The sanitized token view returned by `getAllTokens`: the comment in the
source says it does not send the actual access tokens to the frontend, and
the view indeed has no secret fields. -/
structure TokenView where
  id : Nat
  tokenType : String
  scopes : List String
  channelLogin : Option String
  channelId : Option String
  name : Option String
  expiresAt : Option Nat
  createdAt : Nat
  updatedAt : Nat
  twitchConfig : Option ConfigRef
deriving DecidableEq

/-- Projection of a stored row to its sanitized list view. -/
def sanitizeToken (db : Db) (t : SavedToken) : TokenView :=
  { id := t.id
    tokenType := t.tokenType
    scopes := t.scopes
    channelLogin := t.channelLogin
    channelId := t.channelId
    name := t.name
    expiresAt := t.expiresAt
    createdAt := t.createdAt
    updatedAt := t.updatedAt
    twitchConfig := configRefOf db t }

/-- The `getAllTokens` handler: the user's rows, ordered by `createdAt`
descending, each sanitized. -/
def getAllTokens (userId : Nat) (db : Db) : List TokenView :=
  ((db.tokens.filter (fun t => t.userId == userId)).mergeSort
    (fun a b => decide (b.createdAt ≤ a.createdAt))).map (sanitizeToken db)

/-- The single-token view returned by `getToken`: the stored row together
with the decrypted access secret and, when present, the decrypted refresh
secret. -/
structure TokenDetail where
  id : Nat
  tokenType : String
  accessToken : String
  refreshToken : Option String
  scopes : List String
  channelLogin : Option String
  channelId : Option String
  name : Option String
  expiresAt : Option Nat
  createdAt : Nat
  updatedAt : Nat
  twitchConfig : Option ConfigRef
deriving DecidableEq

/-- Response of the `getToken` handler. -/
inductive GetTokenOutcome where
  | notFound
  | forbidden
  | found (t : TokenDetail)
deriving DecidableEq

/-- HTTP status code of each `getToken` response. -/
def GetTokenOutcome.status : GetTokenOutcome → Nat
  | GetTokenOutcome.notFound => 404
  | GetTokenOutcome.forbidden => 403
  | GetTokenOutcome.found _ => 200

/-- The `getToken` handler: row lookup (404), ownership (403), then the row
with decrypted secrets (`token.refreshToken ? decrypt(token.refreshToken) :
undefined`). -/
def getToken (userId id : Nat) (dec : String → String) (db : Db) :
    GetTokenOutcome :=
  match findSavedToken db id with
  | none => GetTokenOutcome.notFound
  | some token =>
    if token.userId ≠ userId then GetTokenOutcome.forbidden
    else
      GetTokenOutcome.found
        { id := token.id
          tokenType := token.tokenType
          accessToken := dec token.accessToken
          refreshToken := (jsTruthy token.refreshToken).map dec
          scopes := token.scopes
          channelLogin := token.channelLogin
          channelId := token.channelId
          name := token.name
          expiresAt := token.expiresAt
          createdAt := token.createdAt
          updatedAt := token.updatedAt
          twitchConfig := configRefOf db token }

/-- URL construction of `generateAuthorizationUrl`; `URLSearchParams`
percent-encoding is not modelled (no claim depends on it). -/
def generateAuthorizationUrl (clientId redirectUri : String)
    (scopes : List String) (state : String) : String :=
  "https://id.twitch.tv/oauth2/authorize?client_id=" ++ clientId ++
    "&redirect_uri=" ++ redirectUri ++ "&response_type=code&scope=" ++
    String.intercalate ("+") scopes ++ "&state=" ++ state

/-- Response of the `startAuthorizationFlow` handler.  The source has no
forbidden branch here: a missing config and a foreign-owned config share one
check and one 404 response. -/
inductive AuthUrlOutcome where
  | notFound
  | output (authorizationUrl redirectUri : String)
deriving DecidableEq

/-- HTTP status code of each `startAuthorizationFlow` response. -/
def AuthUrlOutcome.status : AuthUrlOutcome → Nat
  | AuthUrlOutcome.notFound => 404
  | AuthUrlOutcome.output _ _ => 200

/-- The `startAuthorizationFlow` handler: the combined check
`!twitchConfig || twitchConfig.userId !== userId` answers 404 in both cases;
nothing is persisted. -/
def startAuthorizationFlow (userId twitchConfigId : Nat) (scopes : List String)
    (state redirectUri : String) (db : Db) : AuthUrlOutcome × Db :=
  match findConfig db twitchConfigId with
  | none => (AuthUrlOutcome.notFound, db)
  | some cfg =>
    if cfg.userId ≠ userId then (AuthUrlOutcome.notFound, db)
    else
      (AuthUrlOutcome.output
        (generateAuthorizationUrl cfg.clientId redirectUri scopes state) redirectUri, db)

/-! ## Webhook reconciliation engine (`webhookController.syncWebhooks`)

The engine iterates over the user's `app`-kind tokens; for each it fetches the
remote subscription list with one unpaginated GET, re-reads the user's whole
local webhook table, inserts remote subscriptions that are missing locally,
overwrites the matched ones, and deletes every local record whose provider id
is absent from that token's remote list.  Primary keys of created rows are
modelled by a counter in the state. -/

/-- A `webhook` row: local cache of one provider-side EventSub
subscription. -/
structure Webhook where
  id : Nat
  userId : Nat
  subscriptionId : String
  type : String
  condition : List (String × String)
  callbackUrl : String
  status : String
  cost : Nat
deriving DecidableEq

/-- One remote subscription as returned by the provider's list endpoint. -/
structure RemoteSub where
  id : String
  type : String
  condition : List (String × String)
  callback : String
  status : String
  cost : Option Nat
deriving DecidableEq

/-- The webhook table plus the next free primary key. -/
structure WebhookState where
  webhooks : List Webhook
  nextId : Nat
deriving DecidableEq

/-- Counters reported by one sync pass. -/
structure SyncCounts where
  imported : Nat
  updated : Nat
  removed : Nat
deriving DecidableEq

/-- Row created for a remote subscription that is missing locally
(`prisma.webhook.create`). -/
def newWebhook (rowId userId : Nat) (sub : RemoteSub) : Webhook :=
  { id := rowId
    userId := userId
    subscriptionId := sub.id
    type := sub.type
    condition := sub.condition
    callbackUrl := sub.callback
    status := sub.status
    cost := sub.cost.getD 0 }

/-- Overwrite applied to matched rows
(`prisma.webhook.updateMany({where: {userId, subscriptionId}})`): status,
condition and cost are taken from the remote copy. -/
def updateFromRemote (userId : Nat) (sub : RemoteSub) (w : Webhook) : Webhook :=
  if w.userId = userId ∧ w.subscriptionId = sub.id then
    { w with status := sub.status, condition := sub.condition, cost := sub.cost.getD 0 }
  else w

/-- Result of the import/update loop over the remote list. -/
structure RemotePassResult where
  webhooks : List Webhook
  nextId : Nat
  imported : Nat
  updated : Nat
deriving DecidableEq

/-- The import/update loop: the membership set `localIds` is computed once
before the loop, so it does not see rows created inside the loop. -/
def processRemote (userId : Nat) (localIds : List String) :
    List RemoteSub → List Webhook → Nat → RemotePassResult
  | [], ws, nid => { webhooks := ws, nextId := nid, imported := 0, updated := 0 }
  | sub :: rest, ws, nid =>
    if sub.id ∈ localIds then
      let r := processRemote userId localIds rest (ws.map (updateFromRemote userId sub)) nid
      { r with updated := r.updated + 1 }
    else
      let r := processRemote userId localIds rest (ws ++ [newWebhook nid userId sub]) (nid + 1)
      { r with imported := r.imported + 1 }

/-- The stale-removal loop: it iterates over the snapshot of the user's rows
taken before the import loop and deletes, by primary key, each row whose
provider id is absent from the remote list. -/
def processDeletes (remoteIds : List String) :
    List Webhook → List Webhook → List Webhook × Nat
  | [], ws => (ws, 0)
  | w :: snapshot, ws =>
    if w.subscriptionId ∈ remoteIds then processDeletes remoteIds snapshot ws
    else
      let r := processDeletes remoteIds snapshot (ws.filter (fun x => x.id != w.id))
      (r.1, r.2 + 1)

/-- One credential set's sub-pass of `syncWebhooks`, given the remote list
obtained for its token: snapshot of the user's rows, import/update loop, then
stale removal against this remote list alone. -/
def syncOnePass (userId : Nat) (st : WebhookState) (remote : List RemoteSub) :
    WebhookState × SyncCounts :=
  let localWebhooks := st.webhooks.filter (fun w => w.userId == userId)
  let localIds := localWebhooks.map (fun w => w.subscriptionId)
  let r := processRemote userId localIds remote st.webhooks st.nextId
  let remoteIds := remote.map (fun s => s.id)
  let d := processDeletes remoteIds localWebhooks r.webhooks
  ({ webhooks := d.1, nextId := r.nextId },
    { imported := r.imported, updated := r.updated, removed := d.2 })

/-- The single list GET of the sub-pass: the source sends one request with no
pagination cursor and uses `response.data.data`, so it obtains exactly the
first provider page. -/
def fetchRemoteSubscriptions (pages : List (List RemoteSub)) : List RemoteSub :=
  pages.headD []

/-- Modelled from the spec: the full current remote list, accumulated page by
page until the provider signals no further pages.  No such accumulation
exists in the source (`syncWebhooks` performs a single GET and ignores the
pagination cursor); this definition follows the spec's words for
comparison. -/
def fullRemoteSubscriptionList (pages : List (List RemoteSub)) : List RemoteSub :=
  pages.flatten

/-- The `syncWebhooks` loop over the selected `app`-kind tokens: each entry
is the provider's paged reply for one token, `none` modelling a request that
threw (that credential set is skipped and the pass continues).  Counters are
accumulated across sub-passes. -/
def syncLoop (userId : Nat) :
    List (Option (List (List RemoteSub))) → WebhookState → WebhookState × SyncCounts
  | [], st => (st, { imported := 0, updated := 0, removed := 0 })
  | none :: rest, st => syncLoop userId rest st
  | some pages :: rest, st =>
    let p := syncOnePass userId st (fetchRemoteSubscriptions pages)
    let r := syncLoop userId rest p.1
    (r.1,
      { imported := p.2.imported + r.2.imported
        updated := p.2.updated + r.2.updated
        removed := p.2.removed + r.2.removed })

/-- Token selection of `syncWebhooks`: the user's `app`-kind tokens,
optionally restricted to one credential set. -/
def appTokensFor (db : Db) (userId : Nat) (configId : Option Nat) : List SavedToken :=
  db.tokens.filter (fun t => t.userId == userId && t.tokenType == appKind &&
    (match configId with
     | some c => t.twitchConfigId == c
     | none => true))

/-- The `syncWebhooks` handler: 404 (`none`) when no `app`-kind token
matches, otherwise the loop over the selected tokens with each token's
provider reply. -/
def syncWebhooks (userId : Nat) (configId : Option Nat) (db : Db)
    (pagesFor : Nat → Option (List (List RemoteSub))) (st : WebhookState) :
    Option (WebhookState × SyncCounts) :=
  let tokens := appTokensFor db userId configId
  if tokens.length = 0 then none
  else some (syncLoop userId (tokens.map (fun t => pagesFor t.id)) st)

/-! ## Claim C2: device-poll error classification -/

/-- C2: `pollDeviceToken` returns `null` (still pending) exactly when the
provider responds HTTP 400 with error `authorization_pending` or `slow_down`
(treated identically); it throws the distinct `access_denied` and
`expired_token` errors exactly when the provider reports those outcomes with
HTTP 400; every other provider rejection surfaces as the generic error; and
the `pollUserToken` caller maps the three outcomes to `pending`, `denied`
and `expired` responses. -/
theorem pollDeviceToken_error_classification :
    accessDeniedMsg ≠ expiredTokenMsg ∧
    (∀ reply : DeviceHttpReply, pollDeviceToken reply = Except.ok none ↔
      ∃ message errorField, reply = DeviceHttpReply.httpError 400 message errorField ∧
        (jsStrOr message errorField = some authorizationPendingMsg ∨
         jsStrOr message errorField = some slowDownMsg)) ∧
    (∀ reply : DeviceHttpReply, pollDeviceToken reply = Except.error accessDeniedMsg ↔
      ∃ message errorField, reply = DeviceHttpReply.httpError 400 message errorField ∧
        jsStrOr message errorField = some accessDeniedMsg) ∧
    (∀ reply : DeviceHttpReply, pollDeviceToken reply = Except.error expiredTokenMsg ↔
      ∃ message errorField, reply = DeviceHttpReply.httpError 400 message errorField ∧
        jsStrOr message errorField = some expiredTokenMsg) ∧
    (∀ (status : Nat) (message errorField : Option String), status ≠ 400 →
      pollDeviceToken (DeviceHttpReply.httpError status message errorField) =
        Except.error failedPollMsg) ∧
    (∀ message errorField : Option String,
      jsStrOr message errorField ≠ some authorizationPendingMsg →
      jsStrOr message errorField ≠ some accessDeniedMsg →
      jsStrOr message errorField ≠ some expiredTokenMsg →
      jsStrOr message errorField ≠ some slowDownMsg →
      pollDeviceToken (DeviceHttpReply.httpError 400 message errorField) =
        Except.error failedPollMsg) ∧
    (∀ (u cid : Nat) (name : Option String) (env : PollEnv) (db : Db)
        (cfg : TwitchConfig), findConfig db cid = some cfg → cfg.userId = u →
      (pollDeviceToken env.providerReply = Except.ok none →
        pollUserToken u cid name env db = (PollOutcome.pending, db)) ∧
      (pollDeviceToken env.providerReply = Except.error accessDeniedMsg →
        pollUserToken u cid name env db = (PollOutcome.denied, db)) ∧
      (pollDeviceToken env.providerReply = Except.error expiredTokenMsg →
        pollUserToken u cid name env db = (PollOutcome.expired, db))) := by
  refine ⟨by decide, ?_, ?_, ?_, ?_, ?_, ?_⟩
  · intro reply
    constructor
    · intro h
      match reply with
      | DeviceHttpReply.success d => simp [pollDeviceToken] at h
      | DeviceHttpReply.networkFailure => simp [pollDeviceToken, failedPollMsg] at h
      | DeviceHttpReply.httpError status message errorField =>
        by_cases hs : status = 400
        · subst hs
          refine ⟨message, errorField, rfl, ?_⟩
          simp only [pollDeviceToken, if_pos rfl] at h
          by_cases h1 : jsStrOr message errorField = some authorizationPendingMsg
          · exact Or.inl h1
          · rw [if_neg h1] at h
            by_cases h2 : jsStrOr message errorField = some accessDeniedMsg
            · rw [if_pos h2] at h; cases h
            · rw [if_neg h2] at h
              by_cases h3 : jsStrOr message errorField = some expiredTokenMsg
              · rw [if_pos h3] at h; cases h
              · rw [if_neg h3] at h
                by_cases h4 : jsStrOr message errorField = some slowDownMsg
                · exact Or.inr h4
                · rw [if_neg h4] at h; cases h
        · simp only [pollDeviceToken, if_neg hs] at h; cases h
    · rintro ⟨message, errorField, rfl, h | h⟩
      · simp [pollDeviceToken, h]
      · simp [pollDeviceToken, h, authorizationPendingMsg, slowDownMsg,
          accessDeniedMsg, expiredTokenMsg]
  · intro reply
    constructor
    · intro h
      match reply with
      | DeviceHttpReply.success d => simp [pollDeviceToken] at h
      | DeviceHttpReply.networkFailure =>
        simp only [pollDeviceToken, Except.error.injEq] at h
        exact absurd h (by decide)
      | DeviceHttpReply.httpError status message errorField =>
        by_cases hs : status = 400
        · subst hs
          refine ⟨message, errorField, rfl, ?_⟩
          simp only [pollDeviceToken, if_pos rfl] at h
          by_cases h1 : jsStrOr message errorField = some authorizationPendingMsg
          · rw [if_pos h1] at h; cases h
          · rw [if_neg h1] at h
            by_cases h2 : jsStrOr message errorField = some accessDeniedMsg
            · exact h2
            · rw [if_neg h2] at h
              by_cases h3 : jsStrOr message errorField = some expiredTokenMsg
              · rw [if_pos h3] at h
                exact absurd (Except.error.inj h) (by decide)
              · rw [if_neg h3] at h
                by_cases h4 : jsStrOr message errorField = some slowDownMsg
                · rw [if_pos h4] at h; cases h
                · rw [if_neg h4] at h
                  exact absurd (Except.error.inj h) (by decide)
        · simp only [pollDeviceToken, if_neg hs] at h
          exact absurd (Except.error.inj h) (by decide)
    · rintro ⟨message, errorField, rfl, h⟩
      have h1 : jsStrOr message errorField ≠ some authorizationPendingMsg := by
        rw [h]; decide
      simp [pollDeviceToken, if_neg h1, h, authorizationPendingMsg, accessDeniedMsg,
        expiredTokenMsg, slowDownMsg]
  · intro reply
    constructor
    · intro h
      match reply with
      | DeviceHttpReply.success d => simp [pollDeviceToken] at h
      | DeviceHttpReply.networkFailure =>
        simp only [pollDeviceToken, Except.error.injEq] at h
        exact absurd h (by decide)
      | DeviceHttpReply.httpError status message errorField =>
        by_cases hs : status = 400
        · subst hs
          refine ⟨message, errorField, rfl, ?_⟩
          simp only [pollDeviceToken, if_pos rfl] at h
          by_cases h1 : jsStrOr message errorField = some authorizationPendingMsg
          · rw [if_pos h1] at h; cases h
          · rw [if_neg h1] at h
            by_cases h2 : jsStrOr message errorField = some accessDeniedMsg
            · rw [if_pos h2] at h
              exact absurd (Except.error.inj h) (by decide)
            · rw [if_neg h2] at h
              by_cases h3 : jsStrOr message errorField = some expiredTokenMsg
              · exact h3
              · rw [if_neg h3] at h
                by_cases h4 : jsStrOr message errorField = some slowDownMsg
                · rw [if_pos h4] at h; cases h
                · rw [if_neg h4] at h
                  exact absurd (Except.error.inj h) (by decide)
        · simp only [pollDeviceToken, if_neg hs] at h
          exact absurd (Except.error.inj h) (by decide)
    · rintro ⟨message, errorField, rfl, h⟩
      have h1 : jsStrOr message errorField ≠ some authorizationPendingMsg := by
        rw [h]; decide
      have h2 : jsStrOr message errorField ≠ some accessDeniedMsg := by
        rw [h]; decide
      simp [pollDeviceToken, if_neg h1, if_neg h2, h, authorizationPendingMsg,
        accessDeniedMsg, expiredTokenMsg, slowDownMsg]
  · intro status message errorField hs
    simp only [pollDeviceToken, if_neg hs]
  · intro message errorField h1 h2 h3 h4
    simp [pollDeviceToken, if_neg h1, if_neg h2, if_neg h3, if_neg h4]
  · intro u cid name env db cfg hfind hown
    have hne : ¬cfg.userId ≠ u := fun hh => hh hown
    refine ⟨?_, ?_, ?_⟩
    · intro h
      simp only [pollUserToken, hfind, if_neg hne, h]
    · intro h
      simp [pollUserToken, hfind, if_neg hne, h]
    · intro h
      simp [pollUserToken, hfind, if_neg hne, h, accessDeniedMsg, expiredTokenMsg]

/-! ## Claim C1: device-flow poll persistence -/

theorem pollUserToken_pending (u cid : Nat) (name : Option String) (env : PollEnv)
    (db : Db) (cfg : TwitchConfig) (hfind : findConfig db cid = some cfg)
    (hown : cfg.userId = u)
    (h : pollDeviceToken env.providerReply = Except.ok none) :
    pollUserToken u cid name env db = (PollOutcome.pending, db) := by
  have hne : ¬cfg.userId ≠ u := fun hh => hh hown
  simp [pollUserToken, hfind, if_neg hne, h]

theorem pollUserToken_success (u cid : Nat) (name : Option String) (env : PollEnv)
    (db : Db) (cfg : TwitchConfig) (tokenData : TokenData)
    (validation : ValidationBody) (hfind : findConfig db cid = some cfg)
    (hown : cfg.userId = u)
    (h : pollDeviceToken env.providerReply = Except.ok (some tokenData))
    (hv : env.validation = some validation) :
    pollUserToken u cid name env db =
      (PollOutcome.success (mkUserToken u cid name env tokenData validation),
        { db with tokens := db.tokens ++ [mkUserToken u cid name env tokenData validation] }) := by
  have hne : ¬cfg.userId ≠ u := fun hh => hh hown
  simp [pollUserToken, hfind, if_neg hne, h, hv]

theorem runPolls_pending_then_success (u cid : Nat) (name : Option String)
    (cfg : TwitchConfig) (succEnv : PollEnv) (tokenData : TokenData)
    (validation : ValidationBody)
    (hs : pollDeviceToken succEnv.providerReply = Except.ok (some tokenData))
    (hv : succEnv.validation = some validation) (hown : cfg.userId = u) :
    ∀ (pendEnvs : List PollEnv) (db : Db), findConfig db cid = some cfg →
      (∀ e ∈ pendEnvs, pollDeviceToken e.providerReply = Except.ok none) →
      runPolls u cid name (pendEnvs ++ [succEnv]) db =
        { db with tokens := db.tokens ++ [mkUserToken u cid name succEnv tokenData validation] } := by
  intro pendEnvs
  induction pendEnvs with
  | nil =>
    intro db hfind _
    simp only [List.nil_append, runPolls]
    rw [pollUserToken_success u cid name succEnv db cfg tokenData validation hfind hown hs hv]
  | cons e rest ih =>
    intro db hfind hpends
    have he : pollDeviceToken e.providerReply = Except.ok none :=
      hpends e (List.mem_cons_self e rest)
    simp only [List.cons_append, runPolls]
    rw [pollUserToken_pending u cid name e db cfg hfind hown he]
    exact ih db hfind (fun x hx => hpends x (List.mem_cons_of_mem _ hx))

/-- C1: on a still-pending poll the orchestrator reports `pending` and
persists nothing; on a provider token result it validates the new access
secret and persists exactly one new `user`-kind TokenRecord whose secrets are
the encrypted token values, whose subject identity comes from the validation
response, whose scopes are the granted scopes and whose expiry is the receipt
time plus `expiresIn` seconds; `start` persists nothing; and a start followed
by any number of pending polls and one successful poll appends exactly one
TokenRecord. -/
theorem pollUserToken_device_flow_persistence :
    (∀ (u cid : Nat) (name : Option String) (env : PollEnv) (db : Db)
        (cfg : TwitchConfig), findConfig db cid = some cfg → cfg.userId = u →
      pollDeviceToken env.providerReply = Except.ok none →
      pollUserToken u cid name env db = (PollOutcome.pending, db)) ∧
    (∀ (u cid : Nat) (name : Option String) (env : PollEnv) (db : Db)
        (cfg : TwitchConfig) (tokenData : TokenData) (validation : ValidationBody),
      findConfig db cid = some cfg → cfg.userId = u →
      pollDeviceToken env.providerReply = Except.ok (some tokenData) →
      env.validation = some validation →
      pollUserToken u cid name env db =
        (PollOutcome.success (mkUserToken u cid name env tokenData validation),
          { db with tokens := db.tokens ++ [mkUserToken u cid name env tokenData validation] }) ∧
      (mkUserToken u cid name env tokenData validation).tokenType = userKind ∧
      (mkUserToken u cid name env tokenData validation).accessToken =
        env.enc tokenData.accessToken ∧
      (mkUserToken u cid name env tokenData validation).refreshToken =
        some (env.enc tokenData.refreshToken) ∧
      (mkUserToken u cid name env tokenData validation).channelLogin = validation.login ∧
      (mkUserToken u cid name env tokenData validation).channelId = validation.userId ∧
      (mkUserToken u cid name env tokenData validation).scopes = tokenData.scopes ∧
      (mkUserToken u cid name env tokenData validation).expiresAt =
        some (env.nowMs + tokenData.expiresIn * 1000)) ∧
    (∀ (u cid : Nat) (flowReply : Option DeviceFlowData) (db : Db),
      (startUserToken u cid flowReply db).2 = db) ∧
    (∀ (u cid : Nat) (name : Option String) (db : Db) (cfg : TwitchConfig)
        (pendEnvs : List PollEnv) (succEnv : PollEnv) (tokenData : TokenData)
        (validation : ValidationBody),
      findConfig db cid = some cfg → cfg.userId = u →
      (∀ e ∈ pendEnvs, pollDeviceToken e.providerReply = Except.ok none) →
      pollDeviceToken succEnv.providerReply = Except.ok (some tokenData) →
      succEnv.validation = some validation →
      runPolls u cid name (pendEnvs ++ [succEnv]) db =
        { db with tokens := db.tokens ++ [mkUserToken u cid name succEnv tokenData validation] }) := by
  refine ⟨pollUserToken_pending, ?_, ?_, ?_⟩
  · intro u cid name env db cfg tokenData validation hfind hown h hv
    exact ⟨pollUserToken_success u cid name env db cfg tokenData validation hfind hown h hv,
      rfl, rfl, rfl, rfl, rfl, rfl, rfl⟩
  · intro u cid flowReply db
    unfold startUserToken
    match hf : findConfig db cid with
    | none => rfl
    | some cfg =>
      by_cases hne : cfg.userId ≠ u
      · simp [if_pos hne]
      · simp only [if_neg hne]
        match flowReply with
        | none => rfl
        | some d => rfl
  · intro u cid name db cfg pendEnvs succEnv tokenData validation hfind hown hpends hs hv
    exact runPolls_pending_then_success u cid name cfg succEnv tokenData validation
      hs hv hown pendEnvs db hfind hpends

/-- Concrete credential set used by witnesses. -/
def cfgW : TwitchConfig :=
  { id := 1, userId := 1, clientId := "cid", clientSecret := "sec", name := none }

/-- Concrete database used by witnesses. -/
def dbW : Db := { configs := [cfgW], tokens := [] }

/-- Concrete encryption oracle used by witnesses. -/
def encW : String → String := fun s => "enc-" ++ s

/-- A poll environment whose provider reply is `authorization_pending`. -/
def envPendingW : PollEnv :=
  { providerReply := DeviceHttpReply.httpError 400 (some ("authorization_pending")) none
    validation := none
    nowMs := 0
    enc := encW
    newId := 1 }

/-- A poll environment whose provider reply is a token result. -/
def envSuccessW : PollEnv :=
  { providerReply := DeviceHttpReply.success
      { access_token := "at", refresh_token := "rt", expires_in := 3600
        scope := ScopeField.arr ["chat"] }
    validation := some
      { clientId := "cid", login := some ("log"), scopes := ["chat"]
        userId := some ("42"), expiresIn := 100 }
    nowMs := 5
    enc := encW
    newId := 1 }

/-- The token data carried by `envSuccessW`. -/
def tokenDataW : TokenData :=
  { accessToken := "at", refreshToken := "rt", expiresIn := 3600, scopes := ["chat"] }

/-- The validation body carried by `envSuccessW`. -/
def validationW : ValidationBody :=
  { clientId := "cid", login := some ("log"), scopes := ["chat"]
    userId := some ("42"), expiresIn := 100 }

/-- Evaluation of C2 at concrete provider replies: both pending spellings map
to `null`, denial and expiry throw their distinct errors, an unclassified
rejection is generic, and the caller reports `pending` on a pending reply. -/
theorem c2_classification_witness :
    pollDeviceToken (DeviceHttpReply.httpError 400 (some ("authorization_pending")) none) =
      Except.ok none ∧
    pollDeviceToken (DeviceHttpReply.httpError 400 (some ("slow_down")) none) =
      Except.ok none ∧
    pollDeviceToken (DeviceHttpReply.httpError 400 (some ("access_denied")) none) =
      Except.error accessDeniedMsg ∧
    pollDeviceToken (DeviceHttpReply.httpError 400 (some ("expired_token")) none) =
      Except.error expiredTokenMsg ∧
    pollDeviceToken (DeviceHttpReply.httpError 500 none none) =
      Except.error failedPollMsg ∧
    pollUserToken 1 1 none envPendingW dbW = (PollOutcome.pending, dbW) := by
  refine ⟨?_, ?_, ?_, ?_, ?_, ?_⟩
  · exact (pollDeviceToken_error_classification.2.1 _).mpr ⟨_, _, rfl, Or.inl (by decide)⟩
  · exact (pollDeviceToken_error_classification.2.1 _).mpr ⟨_, _, rfl, Or.inr (by decide)⟩
  · exact (pollDeviceToken_error_classification.2.2.1 _).mpr ⟨_, _, rfl, by decide⟩
  · exact (pollDeviceToken_error_classification.2.2.2.1 _).mpr ⟨_, _, rfl, by decide⟩
  · exact pollDeviceToken_error_classification.2.2.2.2.1 500 none none (by decide)
  · exact (pollDeviceToken_error_classification.2.2.2.2.2.2 1 1 none envPendingW dbW cfgW
      rfl rfl).1 rfl

/-- Evaluation of C1: three pending polls followed by one successful poll on
an initially token-free store create exactly one TokenRecord. -/
theorem c1_device_flow_witness :
    runPolls 1 1 none [envPendingW, envPendingW, envPendingW, envSuccessW] dbW =
      { configs := [cfgW], tokens := [mkUserToken 1 1 none envSuccessW tokenDataW validationW] } ∧
    (startUserToken 1 1 none dbW).2 = dbW := by
  constructor
  · have h := pollUserToken_device_flow_persistence.2.2.2 1 1 none dbW cfgW
      [envPendingW, envPendingW, envPendingW] envSuccessW tokenDataW validationW
      rfl rfl ?_ rfl rfl
    · exact h
    · intro e he
      simp only [List.mem_cons, List.not_mem_nil, or_false] at he
      rcases he with rfl | rfl | rfl <;> rfl
  · exact pollUserToken_device_flow_persistence.2.2.1 1 1 none dbW

/-! ## Claim C3: refresh replaces in place -/

/-- C3: `refreshToken` fails with the NotRefreshable 400 response and leaves
the store unchanged unless the record is `user`-kind and carries a refresh
secret; otherwise it overwrites that same record's access secret, refresh
secret, scopes and expiry in a single update: the table keeps its length, the
row ids are unchanged, the number of rows with id `T` is unchanged, and the
reported row is the stored row with exactly those four fields (plus
`updatedAt`) replaced. -/
theorem refreshSavedToken_in_place :
    ∀ (u id : Nat) (env : RefreshEnv) (db : Db) (token : SavedToken),
      findSavedToken db id = some token → token.userId = u →
      ((token.tokenType ≠ userKind ∨ jsTruthy token.refreshToken = none) →
        refreshSavedToken u id env db = (RefreshOutcome.notRefreshable, db) ∧
        RefreshOutcome.notRefreshable.status = 400) ∧
      (∀ (cfg : TwitchConfig) (newTokenData : TokenData),
        token.tokenType = userKind → jsTruthy token.refreshToken ≠ none →
        findConfig db token.twitchConfigId = some cfg →
        env.refreshReply = some newTokenData →
        refreshSavedToken u id env db =
          (RefreshOutcome.refreshed (applyRefresh id env newTokenData token),
            { db with tokens := db.tokens.map (applyRefresh id env newTokenData) }) ∧
        (db.tokens.map (applyRefresh id env newTokenData)).length = db.tokens.length ∧
        (db.tokens.map (applyRefresh id env newTokenData)).map (fun t => t.id) =
          db.tokens.map (fun t => t.id) ∧
        ((db.tokens.map (applyRefresh id env newTokenData)).filter
            (fun t => t.id == id)).length =
          (db.tokens.filter (fun t => t.id == id)).length ∧
        applyRefresh id env newTokenData token =
          { token with
            accessToken := env.enc newTokenData.accessToken
            refreshToken := some (env.enc newTokenData.refreshToken)
            scopes := newTokenData.scopes
            expiresAt := some (env.nowMs + newTokenData.expiresIn * 1000)
            updatedAt := env.nowMs }) := by
  intro u id env db token hfind hown
  have hne : ¬token.userId ≠ u := fun hh => hh hown
  have hid : token.id = id := by
    have hsome := List.find?_some hfind
    simpa using hsome
  constructor
  · intro hguard
    constructor
    · unfold refreshSavedToken
      rw [hfind]
      simp only [if_neg hne]
      rw [if_pos hguard]
    · rfl
  · intro cfg newTokenData htype hrefresh hcfg hreply
    have hguard : ¬(token.tokenType ≠ userKind ∨ jsTruthy token.refreshToken = none) := by
      intro hh
      rcases hh with hh | hh
      · exact hh htype
      · exact hrefresh hh
    refine ⟨?_, ?_, ?_, ?_, ?_⟩
    · unfold refreshSavedToken
      rw [hfind]
      simp only [if_neg hne]
      rw [if_neg hguard, hcfg, hreply]
    · exact List.length_map _ _
    · rw [List.map_map]
      apply List.map_congr_left
      intro t _
      show (applyRefresh id env newTokenData t).id = t.id
      unfold applyRefresh
      split <;> rfl
    · rw [List.filter_map]
      rw [List.length_map]
      apply congrArg
      apply List.filter_congr
      intro t _
      show ((applyRefresh id env newTokenData t).id == id) = (t.id == id)
      have : (applyRefresh id env newTokenData t).id = t.id := by
        unfold applyRefresh
        split <;> rfl
      rw [this]
    · unfold applyRefresh
      rw [if_pos hid]

/-- Concrete refreshable `user` token used by the C3 witness. -/
def tokenW : SavedToken :=
  { id := 7, userId := 1, twitchConfigId := 1, tokenType := "user"
    accessToken := "encA", refreshToken := some ("encR"), scopes := ["s1"]
    channelLogin := some ("log"), channelId := some ("42"), name := none
    expiresAt := some 100, createdAt := 1, updatedAt := 1 }

/-- Concrete non-refreshable `app` token used by the C3 witness. -/
def appTokenW : SavedToken :=
  { id := 8, userId := 1, twitchConfigId := 1, tokenType := "app"
    accessToken := "encB", refreshToken := none, scopes := []
    channelLogin := none, channelId := none, name := none
    expiresAt := some 100, createdAt := 1, updatedAt := 1 }

/-- Concrete database used by the C3 witness. -/
def dbRefreshW : Db := { configs := [cfgW], tokens := [tokenW, appTokenW] }

/-- Concrete provider refresh result used by the C3 witness. -/
def newTdW : TokenData :=
  { accessToken := "at2", refreshToken := "rt2", expiresIn := 60, scopes := ["s2"] }

/-- Concrete refresh environment used by the C3 witness. -/
def refreshEnvW : RefreshEnv :=
  { refreshReply := some newTdW, nowMs := 9, enc := encW, dec := fun s => s }

/-- Evaluation of C3 at concrete inputs: refreshing the `app` token is
refused with no state change, and refreshing the `user` token updates that
row in place. -/
theorem c3_refresh_witness :
    refreshSavedToken 1 8 refreshEnvW dbRefreshW = (RefreshOutcome.notRefreshable, dbRefreshW) ∧
    refreshSavedToken 1 7 refreshEnvW dbRefreshW =
      (RefreshOutcome.refreshed (applyRefresh 7 refreshEnvW newTdW tokenW),
        { dbRefreshW with
          tokens := dbRefreshW.tokens.map (applyRefresh 7 refreshEnvW newTdW) }) := by
  constructor
  · exact ((refreshSavedToken_in_place 1 8 refreshEnvW dbRefreshW appTokenW rfl rfl).1
      (Or.inl (by decide))).1
  · exact ((refreshSavedToken_in_place 1 7 refreshEnvW dbRefreshW tokenW rfl rfl).2
      cfgW newTdW rfl (by decide) rfl rfl).1

/-! ## Claim C6: existence before ownership -/

/-- A credential set owned by user 2, used to probe the guards as user 1. -/
def cfgForeign : TwitchConfig :=
  { id := 1, userId := 2, clientId := "c", clientSecret := "s", name := none }

/-- Database holding only the foreign-owned credential set. -/
def dbForeign : Db := { configs := [cfgForeign], tokens := [] }

/-- Counterexample to C6: `startAuthorizationFlow` on an existing credential
set owned by a different user answers 404, not the 403 the claim requires
for every operation — its combined check collapses the missing and
foreign-owned cases into one NotFound response. -/
theorem startAuthorizationFlow_foreign_config_counterexample :
    findConfig dbForeign 1 = some cfgForeign ∧
    cfgForeign.userId ≠ 1 ∧
    (startAuthorizationFlow 1 1 [] ("st") ("uri") dbForeign).1.status = 404 ∧
    ¬(startAuthorizationFlow 1 1 [] ("st") ("uri") dbForeign).1.status = 403 := by
  refine ⟨rfl, by decide, rfl, by decide⟩

/-- C6 amended: the token and config handlers modelled here
(`getToken`, `pollUserToken`, `startUserToken`, `refreshToken`) check
existence before ownership — a missing resource answers NotFound 404 and an
existing resource owned by another user answers Forbidden 403 — except
`startAuthorizationFlow` (and the callback sharing its check), which answers
NotFound 404 in both cases. -/
theorem ownership_guard_order_amended :
    (∀ (u id : Nat) (dec : String → String) (db : Db),
      findSavedToken db id = none → (getToken u id dec db).status = 404) ∧
    (∀ (u id : Nat) (dec : String → String) (db : Db) (t : SavedToken),
      findSavedToken db id = some t → t.userId ≠ u →
      (getToken u id dec db).status = 403) ∧
    (∀ (u cid : Nat) (name : Option String) (env : PollEnv) (db : Db),
      findConfig db cid = none →
      (pollUserToken u cid name env db).1.status = 404 ∧
      (pollUserToken u cid name env db).2 = db) ∧
    (∀ (u cid : Nat) (name : Option String) (env : PollEnv) (db : Db)
        (cfg : TwitchConfig), findConfig db cid = some cfg → cfg.userId ≠ u →
      (pollUserToken u cid name env db).1.status = 403 ∧
      (pollUserToken u cid name env db).2 = db) ∧
    (∀ (u cid : Nat) (flowReply : Option DeviceFlowData) (db : Db),
      findConfig db cid = none → (startUserToken u cid flowReply db).1.status = 404) ∧
    (∀ (u cid : Nat) (flowReply : Option DeviceFlowData) (db : Db)
        (cfg : TwitchConfig), findConfig db cid = some cfg → cfg.userId ≠ u →
      (startUserToken u cid flowReply db).1.status = 403) ∧
    (∀ (u id : Nat) (env : RefreshEnv) (db : Db),
      findSavedToken db id = none →
      (refreshSavedToken u id env db).1.status = 404 ∧
      (refreshSavedToken u id env db).2 = db) ∧
    (∀ (u id : Nat) (env : RefreshEnv) (db : Db) (t : SavedToken),
      findSavedToken db id = some t → t.userId ≠ u →
      (refreshSavedToken u id env db).1.status = 403 ∧
      (refreshSavedToken u id env db).2 = db) ∧
    (∀ (u cid : Nat) (scopes : List String) (st uri : String) (db : Db),
      findConfig db cid = none →
      (startAuthorizationFlow u cid scopes st uri db).1.status = 404) ∧
    (∀ (u cid : Nat) (scopes : List String) (st uri : String) (db : Db)
        (cfg : TwitchConfig), findConfig db cid = some cfg → cfg.userId ≠ u →
      (startAuthorizationFlow u cid scopes st uri db).1.status = 404) := by
  refine ⟨?_, ?_, ?_, ?_, ?_, ?_, ?_, ?_, ?_, ?_⟩
  · intro u id dec db h
    simp [getToken, h, GetTokenOutcome.status]
  · intro u id dec db t h hown
    simp [getToken, h, if_pos hown, GetTokenOutcome.status]
  · intro u cid name env db h
    constructor <;> simp [pollUserToken, h, PollOutcome.status]
  · intro u cid name env db cfg h hown
    constructor <;> simp [pollUserToken, h, if_pos hown, PollOutcome.status]
  · intro u cid flowReply db h
    simp [startUserToken, h, StartOutcome.status]
  · intro u cid flowReply db cfg h hown
    simp [startUserToken, h, if_pos hown, StartOutcome.status]
  · intro u id env db h
    constructor <;> simp [refreshSavedToken, h, RefreshOutcome.status]
  · intro u id env db t h hown
    constructor <;> simp [refreshSavedToken, h, if_pos hown, RefreshOutcome.status]
  · intro u cid scopes st uri db h
    simp [startAuthorizationFlow, h, AuthUrlOutcome.status]
  · intro u cid scopes st uri db cfg h hown
    simp [startAuthorizationFlow, h, if_pos hown, AuthUrlOutcome.status]

/-- Evaluation of the amended C6 at concrete inputs: as user 1, a missing
token id answers 404, a foreign-owned token answers 403, and the
authorization-flow start on a foreign-owned config answers 404. -/
theorem c6_guard_witness :
    (getToken 1 99 (fun s => s) dbForeign).status = 404 ∧
    (getToken 2 7 (fun s => s) dbRefreshW).status = 403 ∧
    (startAuthorizationFlow 1 1 [] ("st") ("uri") dbForeign).1.status = 404 := by
  refine ⟨?_, ?_, ?_⟩
  · exact ownership_guard_order_amended.1 1 99 (fun s => s) dbForeign rfl
  · exact ownership_guard_order_amended.2.1 2 7 (fun s => s) dbRefreshW tokenW rfl (by decide)
  · exact ownership_guard_order_amended.2.2.2.2.2.2.2.2.2 1 1 [] ("st") ("uri") dbForeign
      cfgForeign rfl (by decide)

/-! ## Claim C10: the token list hides secrets, the single fetch reveals them -/

/-- Erase exactly the stored secret fields of a row; two rows are
"secrets-only different" when their erasures coincide. -/
def eraseSecrets (t : SavedToken) : SavedToken :=
  { t with accessToken := "", refreshToken := none }

theorem sanitizeToken_congr {db1 db2 : Db} {t1 t2 : SavedToken}
    (hc : db1.configs = db2.configs) (h : eraseSecrets t1 = eraseSecrets t2) :
    sanitizeToken db1 t1 = sanitizeToken db2 t2 := by
  have hid : t1.id = t2.id := by
    have hh := congrArg SavedToken.id h
    exact hh
  have hcfgid : t1.twitchConfigId = t2.twitchConfigId := by
    have hh := congrArg SavedToken.twitchConfigId h
    exact hh
  have htype : t1.tokenType = t2.tokenType := by
    have hh := congrArg SavedToken.tokenType h
    exact hh
  have hscopes : t1.scopes = t2.scopes := by
    have hh := congrArg SavedToken.scopes h
    exact hh
  have hlogin : t1.channelLogin = t2.channelLogin := by
    have hh := congrArg SavedToken.channelLogin h
    exact hh
  have hchan : t1.channelId = t2.channelId := by
    have hh := congrArg SavedToken.channelId h
    exact hh
  have hname : t1.name = t2.name := by
    have hh := congrArg SavedToken.name h
    exact hh
  have hexp : t1.expiresAt = t2.expiresAt := by
    have hh := congrArg SavedToken.expiresAt h
    exact hh
  have hcreated : t1.createdAt = t2.createdAt := by
    have hh := congrArg SavedToken.createdAt h
    exact hh
  have hupd : t1.updatedAt = t2.updatedAt := by
    have hh := congrArg SavedToken.updatedAt h
    exact hh
  simp only [sanitizeToken, configRefOf, findConfig]
  rw [hc, hid, hcfgid, htype, hscopes, hlogin, hchan, hname, hexp, hcreated, hupd]

theorem filterMapSanitize_congr (u : Nat) (db1 db2 : Db) (hc : db1.configs = db2.configs) :
    ∀ (l1 l2 : List SavedToken), l1.map eraseSecrets = l2.map eraseSecrets →
      (l1.filter (fun t => t.userId == u)).map (sanitizeToken db1) =
      (l2.filter (fun t => t.userId == u)).map (sanitizeToken db2) := by
  intro l1
  induction l1 with
  | nil =>
    intro l2 h
    cases l2 with
    | nil => rfl
    | cons b t2 => simp at h
  | cons a t ih =>
    intro l2 h
    cases l2 with
    | nil => simp at h
    | cons b t2 =>
      simp only [List.map_cons, List.cons.injEq] at h
      have huid : a.userId = b.userId := by
        have hh := congrArg SavedToken.userId h.1
        exact hh
      rw [List.filter_cons, List.filter_cons, huid]
      by_cases hq : (b.userId == u) = true
      · rw [if_pos hq, if_pos hq]
        simp only [List.map_cons]
        rw [sanitizeToken_congr hc h.1, ih t2 h.2]
      · rw [if_neg hq, if_neg hq]
        exact ih t2 h.2

/-- C10: the list-all-tokens view never includes access or refresh secrets —
two stores that differ only in the stored secret values produce identical
list output — while the single-token fetch returns the decrypted access
secret and, when present, the decrypted refresh secret. -/
theorem getAllTokens_hides_secrets_getToken_reveals :
    (∀ (u : Nat) (db1 db2 : Db), db1.configs = db2.configs →
      db1.tokens.map eraseSecrets = db2.tokens.map eraseSecrets →
      getAllTokens u db1 = getAllTokens u db2) ∧
    (∀ (u id : Nat) (dec : String → String) (db : Db) (token : SavedToken),
      findSavedToken db id = some token → token.userId = u →
      getToken u id dec db = GetTokenOutcome.found
        { id := token.id
          tokenType := token.tokenType
          accessToken := dec token.accessToken
          refreshToken := (jsTruthy token.refreshToken).map dec
          scopes := token.scopes
          channelLogin := token.channelLogin
          channelId := token.channelId
          name := token.name
          expiresAt := token.expiresAt
          createdAt := token.createdAt
          updatedAt := token.updatedAt
          twitchConfig := configRefOf db token }) := by
  constructor
  · intro u db1 db2 hc ht
    have hfactor : ∀ db : Db, getAllTokens u db =
        ((db.tokens.filter (fun t => t.userId == u)).map (sanitizeToken db)).mergeSort
          (fun a b => decide (b.createdAt ≤ a.createdAt)) := by
      intro db
      unfold getAllTokens
      exact List.map_mergeSort (fun a _ b _ => rfl)
    rw [hfactor db1, hfactor db2, filterMapSanitize_congr u db1 db2 hc db1.tokens db2.tokens ht]
  · intro u id dec db token hfind hown
    have hne : ¬token.userId ≠ u := fun hh => hh hown
    simp [getToken, hfind, if_neg hne]

/-- Concrete store used by the C10 witness. -/
def dbSecretA : Db := { configs := [cfgW], tokens := [tokenW] }

/-- The same store with different stored secret values. -/
def dbSecretB : Db :=
  { configs := [cfgW]
    tokens := [{ tokenW with accessToken := "other", refreshToken := some ("otherR") }] }

/-- Concrete decryption oracle used by the C10 witness. -/
def decW : String → String := fun s => "dec-" ++ s

/-- Evaluation of C10 at concrete inputs: two stores differing only in the
stored secrets list identically, and the single fetch returns the decrypted
secrets. -/
theorem c10_sanitize_witness :
    getAllTokens 1 dbSecretA = getAllTokens 1 dbSecretB ∧
    getToken 1 7 decW dbRefreshW = GetTokenOutcome.found
      { id := 7, tokenType := "user", accessToken := decW ("encA")
        refreshToken := some (decW ("encR")), scopes := ["s1"]
        channelLogin := some ("log"), channelId := some ("42"), name := none
        expiresAt := some 100, createdAt := 1, updatedAt := 1
        twitchConfig := some { id := 1, clientId := "cid", name := none } } := by
  constructor
  · exact getAllTokens_hides_secrets_getToken_reveals.1 1 dbSecretA dbSecretB rfl rfl
  · exact getAllTokens_hides_secrets_getToken_reveals.2 1 7 decW dbRefreshW tokenW rfl rfl

/-! ## Closed forms for the reconciliation loops -/

/-- Sequential application of all matched-subscription overwrites. -/
def applyUpdates (userId : Nat) (subs : List RemoteSub) (w : Webhook) : Webhook :=
  subs.foldl (fun acc sub => updateFromRemote userId sub acc) w

/-- The rows inserted for the fresh subscriptions, with consecutive primary
keys starting at `nid`. -/
def insertsFrom (userId nid : Nat) : List RemoteSub → List Webhook
  | [] => []
  | s :: ss => newWebhook nid userId s :: insertsFrom userId (nid + 1) ss

theorem updateFromRemote_id (u : Nat) (s : RemoteSub) (w : Webhook) :
    (updateFromRemote u s w).id = w.id := by
  unfold updateFromRemote; split <;> rfl

theorem updateFromRemote_userId (u : Nat) (s : RemoteSub) (w : Webhook) :
    (updateFromRemote u s w).userId = w.userId := by
  unfold updateFromRemote; split <;> rfl

theorem updateFromRemote_subId (u : Nat) (s : RemoteSub) (w : Webhook) :
    (updateFromRemote u s w).subscriptionId = w.subscriptionId := by
  unfold updateFromRemote; split <;> rfl

theorem applyUpdates_id (u : Nat) (subs : List RemoteSub) :
    ∀ w : Webhook, (applyUpdates u subs w).id = w.id := by
  induction subs with
  | nil => intro w; rfl
  | cons s ss ih =>
    intro w
    show (applyUpdates u ss (updateFromRemote u s w)).id = w.id
    rw [ih, updateFromRemote_id]

theorem applyUpdates_userId (u : Nat) (subs : List RemoteSub) :
    ∀ w : Webhook, (applyUpdates u subs w).userId = w.userId := by
  induction subs with
  | nil => intro w; rfl
  | cons s ss ih =>
    intro w
    show (applyUpdates u ss (updateFromRemote u s w)).userId = w.userId
    rw [ih, updateFromRemote_userId]

theorem applyUpdates_subId (u : Nat) (subs : List RemoteSub) :
    ∀ w : Webhook, (applyUpdates u subs w).subscriptionId = w.subscriptionId := by
  induction subs with
  | nil => intro w; rfl
  | cons s ss ih =>
    intro w
    show (applyUpdates u ss (updateFromRemote u s w)).subscriptionId = w.subscriptionId
    rw [ih, updateFromRemote_subId]

theorem applyUpdates_skips {u : Nat} {lids : List String} {subs : List RemoteSub}
    (hsubs : ∀ s ∈ subs, s.id ∈ lids) :
    ∀ w : Webhook, w.subscriptionId ∉ lids → applyUpdates u subs w = w := by
  induction subs with
  | nil => intro w _; rfl
  | cons s ss ih =>
    intro w hw
    have hupd : updateFromRemote u s w = w := by
      unfold updateFromRemote
      rw [if_neg]
      intro hh
      exact hw (hh.2 ▸ hsubs s (List.mem_cons_self s ss))
    show applyUpdates u ss (updateFromRemote u s w) = w
    rw [hupd]
    exact ih (fun x hx => hsubs x (List.mem_cons_of_mem _ hx)) w hw

theorem insertsFrom_subIds (u : Nat) : ∀ (nid : Nat) (ss : List RemoteSub),
    (insertsFrom u nid ss).map (fun w => w.subscriptionId) = ss.map RemoteSub.id := by
  intro nid ss
  induction ss generalizing nid with
  | nil => rfl
  | cons s t ih => simp [insertsFrom, newWebhook, ih]

theorem insertsFrom_ids (u : Nat) : ∀ (nid : Nat) (ss : List RemoteSub),
    (insertsFrom u nid ss).map (fun w => w.id) = List.range' nid ss.length := by
  intro nid ss
  induction ss generalizing nid with
  | nil => rfl
  | cons s t ih => simp [insertsFrom, newWebhook, ih, List.range'_succ]

theorem insertsFrom_userId (u : Nat) : ∀ (nid : Nat) (ss : List RemoteSub),
    ∀ w ∈ insertsFrom u nid ss, w.userId = u := by
  intro nid ss
  induction ss generalizing nid with
  | nil => intro w hw; cases hw
  | cons s t ih =>
    intro w hw
    rcases List.mem_cons.mp hw with h | h
    · rw [h]; rfl
    · exact ih (nid + 1) w h

theorem processRemote_eq (u : Nat) (lids : List String) :
    ∀ (r : List RemoteSub) (ws : List Webhook) (nid : Nat),
    processRemote u lids r ws nid =
      { webhooks := ws.map (applyUpdates u (r.filter (fun s => decide (s.id ∈ lids)))) ++
          insertsFrom u nid (r.filter (fun s => decide (s.id ∉ lids)))
        nextId := nid + (r.filter (fun s => decide (s.id ∉ lids))).length
        imported := (r.filter (fun s => decide (s.id ∉ lids))).length
        updated := (r.filter (fun s => decide (s.id ∈ lids))).length } := by
  intro r
  induction r with
  | nil =>
    intro ws nid
    have hmap : ws.map (applyUpdates u []) = ws := by
      have hcongr : ws.map (applyUpdates u []) = ws.map id :=
        List.map_congr_left (fun w _ => rfl)
      rw [hcongr, List.map_id]
    simp only [processRemote, List.filter_nil, insertsFrom, List.append_nil,
      List.length_nil, Nat.add_zero, hmap]
  | cons sub rest ih =>
    intro ws nid
    by_cases h : sub.id ∈ lids
    · have hdec : decide (sub.id ∈ lids) = true := decide_eq_true h
      have hdec2 : decide (sub.id ∉ lids) = false := by
        simp [h]
      simp only [processRemote, if_pos h, ih, List.filter_cons, hdec, hdec2,
        if_true, if_false, Bool.false_eq_true, List.length_cons]
      simp only [RemotePassResult.mk.injEq, and_true, true_and]
      refine congrArg (fun x => x ++ _) ?_
      rw [List.map_map]
      apply List.map_congr_left
      intro w _
      rfl
    · have hdec : decide (sub.id ∈ lids) = false := by
        simp [h]
      have hdec2 : decide (sub.id ∉ lids) = true := by
        simp [h]
      have hskip : applyUpdates u (rest.filter (fun s => decide (s.id ∈ lids)))
          (newWebhook nid u sub) = newWebhook nid u sub := by
        apply applyUpdates_skips
        · intro s hs
          have hmem := List.mem_filter.mp hs
          exact of_decide_eq_true hmem.2
        · exact h
      simp only [processRemote, if_neg h, ih, List.filter_cons, hdec, hdec2,
        if_true, if_false, Bool.false_eq_true, List.length_cons]
      simp only [RemotePassResult.mk.injEq, and_true, true_and]
      refine ⟨?_, by omega⟩
      rw [List.map_append, List.map_cons, List.map_nil, hskip, List.append_assoc]
      rfl

/-- Primary keys of the snapshot rows whose provider id is absent from the
remote list — exactly the rows the delete loop removes. -/
def staleIdsOf (remoteIds : List String) (snapshot : List Webhook) : List Nat :=
  (snapshot.filter (fun w => decide (w.subscriptionId ∉ remoteIds))).map (fun w => w.id)

theorem processDeletes_eq (rids : List String) :
    ∀ (snapshot ws : List Webhook),
    processDeletes rids snapshot ws =
      (ws.filter (fun x => decide (x.id ∉ staleIdsOf rids snapshot)),
       (snapshot.filter (fun w => decide (w.subscriptionId ∉ rids))).length) := by
  intro snapshot
  induction snapshot with
  | nil =>
    intro ws
    have hfil : ws.filter (fun x => decide (x.id ∉ staleIdsOf rids [])) = ws := by
      apply List.filter_eq_self.mpr
      intro a _
      simp [staleIdsOf]
    show (ws, 0) = _
    rw [hfil]
    rfl
  | cons w snap ih =>
    intro ws
    by_cases h : w.subscriptionId ∈ rids
    · have hstale : staleIdsOf rids (w :: snap) = staleIdsOf rids snap := by
        simp [staleIdsOf, List.filter_cons, h]
      have hcnt : ((w :: snap).filter (fun x => decide (x.subscriptionId ∉ rids))).length =
          (snap.filter (fun x => decide (x.subscriptionId ∉ rids))).length := by
        simp [List.filter_cons, h]
      simp only [processDeletes, if_pos h, ih, hstale, hcnt]
    · have hstale : staleIdsOf rids (w :: snap) = w.id :: staleIdsOf rids snap := by
        simp [staleIdsOf, List.filter_cons, h]
      have hcnt : ((w :: snap).filter (fun x => decide (x.subscriptionId ∉ rids))).length =
          (snap.filter (fun x => decide (x.subscriptionId ∉ rids))).length + 1 := by
        simp [List.filter_cons, h]
      simp only [processDeletes, if_neg h, ih, hstale, hcnt, List.filter_filter,
        Prod.mk.injEq, and_true, true_and]
      apply List.filter_congr
      intro x _
      by_cases h1 : x.id = w.id
      · simp [h1, List.mem_cons]
      · by_cases h2 : x.id ∈ staleIdsOf rids snap
        · simp [h1, h2, List.mem_cons]
        · simp [h1, h2, List.mem_cons]

/-- The user's locally cached rows (the snapshot each sub-pass re-reads). -/
def localsOf (u : Nat) (st : WebhookState) : List Webhook :=
  st.webhooks.filter (fun w => w.userId == u)

/-- Provider ids of the user's locally cached rows. -/
def userSubIds (u : Nat) (st : WebhookState) : List String :=
  (localsOf u st).map (fun w => w.subscriptionId)

/-- The remote subscriptions whose id is already present locally. -/
def matchedSubs (u : Nat) (st : WebhookState) (remote : List RemoteSub) : List RemoteSub :=
  remote.filter (fun s => decide (s.id ∈ userSubIds u st))

/-- The remote subscriptions whose id is missing locally. -/
def freshSubs (u : Nat) (st : WebhookState) (remote : List RemoteSub) : List RemoteSub :=
  remote.filter (fun s => decide (s.id ∉ userSubIds u st))

/-- The user's rows whose provider id is absent from the remote list. -/
def staleLocals (u : Nat) (st : WebhookState) (remote : List RemoteSub) : List Webhook :=
  (localsOf u st).filter (fun w => decide (w.subscriptionId ∉ remote.map RemoteSub.id))

theorem syncOnePass_eq (u : Nat) (st : WebhookState) (remote : List RemoteSub) :
    syncOnePass u st remote =
      ({ webhooks := (st.webhooks.map (applyUpdates u (matchedSubs u st remote)) ++
            insertsFrom u st.nextId (freshSubs u st remote)).filter
            (fun x => decide (x.id ∉ staleIdsOf (remote.map (fun s => s.id)) (localsOf u st)))
         nextId := st.nextId + (freshSubs u st remote).length },
       { imported := (freshSubs u st remote).length
         updated := (matchedSubs u st remote).length
         removed := (staleLocals u st remote).length }) := by
  unfold syncOnePass
  simp only []
  rw [processRemote_eq, processDeletes_eq]
  rfl

theorem insertsFrom_id_ge (u : Nat) :
    ∀ (n : Nat) (ss : List RemoteSub), ∀ w ∈ insertsFrom u n ss, n ≤ w.id := by
  intro n ss
  induction ss generalizing n with
  | nil => intro w hw; cases hw
  | cons s t ih =>
    intro w hw
    rcases List.mem_cons.mp hw with h | h
    · rw [h]; exact Nat.le_refl n
    · have := ih (n + 1) w h
      omega

/-- Row invariant of the webhook table: primary keys are distinct and below
the next free key. -/
def WfState (st : WebhookState) : Prop :=
  (st.webhooks.map (fun w => w.id)).Nodup ∧ ∀ w ∈ st.webhooks, w.id < st.nextId

theorem stale_iff (u : Nat) (st : WebhookState) (remote : List RemoteSub)
    (hnodup : (st.webhooks.map (fun w => w.id)).Nodup) :
    ∀ w ∈ localsOf u st,
      w.id ∉ staleIdsOf (remote.map RemoteSub.id) (localsOf u st) ↔
        w.subscriptionId ∈ remote.map RemoteSub.id := by
  intro w hw
  constructor
  · intro hnot
    by_contra hmem
    apply hnot
    unfold staleIdsOf
    exact List.mem_map.mpr ⟨w, List.mem_filter.mpr ⟨hw, decide_eq_true hmem⟩, rfl⟩
  · intro hmem hin
    rcases List.mem_map.mp hin with ⟨w1, hw1, hid⟩
    have hw1l : w1 ∈ localsOf u st := (List.mem_filter.mp hw1).1
    have hpred := (List.mem_filter.mp hw1).2
    have hw1w : w1 = w := by
      apply List.inj_on_of_nodup_map hnodup
        ((List.mem_filter.mp hw1l).1) ((List.mem_filter.mp hw).1) hid
    rw [hw1w] at hpred
    exact of_decide_eq_true hpred hmem

theorem userSubIds_syncOnePass (u : Nat) (st : WebhookState) (remote : List RemoteSub)
    (hwf : WfState st) :
    userSubIds u (syncOnePass u st remote).1 =
      ((localsOf u st).filter
        (fun w => decide (w.subscriptionId ∈ remote.map RemoteSub.id))).map
        (fun w => w.subscriptionId) ++ (freshSubs u st remote).map RemoteSub.id := by
  obtain ⟨hnodup, hbound⟩ := hwf
  rw [syncOnePass_eq]
  show (((st.webhooks.map (applyUpdates u (matchedSubs u st remote)) ++
      insertsFrom u st.nextId (freshSubs u st remote)).filter
      (fun x => decide (x.id ∉ staleIdsOf (remote.map (fun s => s.id)) (localsOf u st)))).filter
      (fun w => w.userId == u)).map (fun w => w.subscriptionId) = _
  rw [List.filter_filter, List.filter_append, List.map_append]
  have hA : ((st.webhooks.map (applyUpdates u (matchedSubs u st remote))).filter
      (fun a => (a.userId == u) &&
        decide (a.id ∉ staleIdsOf (remote.map (fun s => s.id)) (localsOf u st)))).map
      (fun w => w.subscriptionId) =
      ((localsOf u st).filter
        (fun w => decide (w.subscriptionId ∈ remote.map RemoteSub.id))).map
        (fun w => w.subscriptionId) := by
    rw [List.filter_map, List.map_map]
    have hpred : st.webhooks.filter
        ((fun a => (a.userId == u) &&
          decide (a.id ∉ staleIdsOf (remote.map (fun s => s.id)) (localsOf u st))) ∘
          applyUpdates u (matchedSubs u st remote)) =
        st.webhooks.filter (fun a => (a.userId == u) &&
          decide (a.id ∉ staleIdsOf (remote.map (fun s => s.id)) (localsOf u st))) := by
      apply List.filter_congr
      intro w _
      simp only [Function.comp_apply]
      rw [applyUpdates_userId, applyUpdates_id]
    rw [hpred]
    have hsplit : st.webhooks.filter (fun a => (a.userId == u) &&
        decide (a.id ∉ staleIdsOf (remote.map (fun s => s.id)) (localsOf u st))) =
        (localsOf u st).filter
          (fun w => decide (w.subscriptionId ∈ remote.map RemoteSub.id)) := by
      have hswap : st.webhooks.filter (fun a => (a.userId == u) &&
          decide (a.id ∉ staleIdsOf (remote.map (fun s => s.id)) (localsOf u st))) =
          st.webhooks.filter (fun a =>
            decide (a.id ∉ staleIdsOf (remote.map (fun s => s.id)) (localsOf u st)) &&
            (a.userId == u)) := by
        apply List.filter_congr
        intro w _
        exact Bool.and_comm _ _
      rw [hswap, ← List.filter_filter]
      apply List.filter_congr
      intro w hw
      have hiff := stale_iff u st remote hnodup w hw
      rw [decide_eq_decide.mpr hiff]
    rw [hsplit]
    apply List.map_congr_left
    intro w _
    exact applyUpdates_subId u (matchedSubs u st remote) w
  have hB : ((insertsFrom u st.nextId (freshSubs u st remote)).filter
      (fun a => (a.userId == u) &&
        decide (a.id ∉ staleIdsOf (remote.map (fun s => s.id)) (localsOf u st)))).map
      (fun w => w.subscriptionId) = (freshSubs u st remote).map RemoteSub.id := by
    have hall : (insertsFrom u st.nextId (freshSubs u st remote)).filter
        (fun a => (a.userId == u) &&
          decide (a.id ∉ staleIdsOf (remote.map (fun s => s.id)) (localsOf u st))) =
        insertsFrom u st.nextId (freshSubs u st remote) := by
      apply List.filter_eq_self.mpr
      intro b hb
      have huser : b.userId = u := insertsFrom_userId u st.nextId (freshSubs u st remote) b hb
      have hge : st.nextId ≤ b.id := insertsFrom_id_ge u st.nextId (freshSubs u st remote) b hb
      have hnotstale : b.id ∉ staleIdsOf (remote.map (fun s => s.id)) (localsOf u st) := by
        intro hin
        rcases List.mem_map.mp hin with ⟨w1, hw1, hid⟩
        have hw1st : w1 ∈ st.webhooks :=
          (List.mem_filter.mp ((List.mem_filter.mp hw1).1)).1
        have := hbound w1 hw1st
        omega
      rw [huser]
      simp [hnotstale]
    rw [hall, insertsFrom_subIds]
  rw [hA, hB]

theorem syncOnePass_counts (u : Nat) (st : WebhookState) (remote : List RemoteSub) :
    (syncOnePass u st remote).2 =
      { imported := (freshSubs u st remote).length
        updated := (matchedSubs u st remote).length
        removed := (staleLocals u st remote).length } := by
  rw [syncOnePass_eq]

theorem syncOnePass_wf (u : Nat) (st : WebhookState) (remote : List RemoteSub)
    (hwf : WfState st) : WfState (syncOnePass u st remote).1 := by
  obtain ⟨hnodup, hbound⟩ := hwf
  rw [syncOnePass_eq]
  have hfactor : (fun (x : Webhook) =>
      decide (x.id ∉ staleIdsOf (remote.map (fun s => s.id)) (localsOf u st))) =
      ((fun i => decide (i ∉ staleIdsOf (remote.map (fun s => s.id)) (localsOf u st))) ∘
        (fun w => w.id)) := rfl
  have hmapA : (st.webhooks.map (applyUpdates u (matchedSubs u st remote))).map
      (fun w => w.id) = st.webhooks.map (fun w => w.id) := by
    rw [List.map_map]
    apply List.map_congr_left
    intro w _
    exact applyUpdates_id u (matchedSubs u st remote) w
  have hmapB : (insertsFrom u st.nextId (freshSubs u st remote)).map (fun w => w.id) =
      List.range' st.nextId (freshSubs u st remote).length :=
    insertsFrom_ids u st.nextId (freshSubs u st remote)
  constructor
  · show (((st.webhooks.map (applyUpdates u (matchedSubs u st remote)) ++
        insertsFrom u st.nextId (freshSubs u st remote)).filter _).map (fun w => w.id)).Nodup
    rw [hfactor, ← List.filter_map, List.map_append, hmapA, hmapB]
    apply List.Nodup.filter
    apply List.Nodup.append hnodup (List.nodup_range' _ _)
    intro a ha hb
    have h1 : a < st.nextId := by
      rcases List.mem_map.mp ha with ⟨w, hw, hwa⟩
      rw [← hwa]
      exact hbound w hw
    have h2 : st.nextId ≤ a := (List.mem_range'_1.mp hb).1
    omega
  · intro w hw
    show w.id < st.nextId + (freshSubs u st remote).length
    have hw2 := (List.mem_filter.mp hw).1
    rcases List.mem_append.mp hw2 with h | h
    · rcases List.mem_map.mp h with ⟨w0, hw0, hww⟩
      rw [← hww, applyUpdates_id]
      have := hbound w0 hw0
      omega
    · have hid : w.id ∈ List.range' st.nextId (freshSubs u st remote).length := by
        rw [← hmapB]
        exact List.mem_map.mpr ⟨w, h, rfl⟩
      have := (List.mem_range'_1.mp hid).2
      omega

theorem mem_userSubIds_syncOnePass (u : Nat) (st : WebhookState)
    (remote : List RemoteSub) (hwf : WfState st) :
    ∀ x, x ∈ userSubIds u (syncOnePass u st remote).1 ↔ x ∈ remote.map RemoteSub.id := by
  intro x
  rw [userSubIds_syncOnePass u st remote hwf]
  constructor
  · intro hx
    rcases List.mem_append.mp hx with h | h
    · rcases List.mem_map.mp h with ⟨w, hw, hxx⟩
      have hmem := of_decide_eq_true (List.mem_filter.mp hw).2
      rw [← hxx]
      exact hmem
    · rcases List.mem_map.mp h with ⟨s, hs, hxx⟩
      rw [← hxx]
      exact List.mem_map.mpr ⟨s, (List.mem_filter.mp hs).1, rfl⟩
  · intro hx
    by_cases hl : x ∈ userSubIds u st
    · rcases List.mem_map.mp hl with ⟨w, hw, hxx⟩
      apply List.mem_append.mpr
      left
      refine List.mem_map.mpr ⟨w, List.mem_filter.mpr ⟨hw, ?_⟩, hxx⟩
      rw [hxx]
      exact decide_eq_true hx
    · rcases List.mem_map.mp hx with ⟨s, hs, hxx⟩
      apply List.mem_append.mpr
      right
      refine List.mem_map.mpr ⟨s, List.mem_filter.mpr ⟨hs, ?_⟩, hxx⟩
      apply decide_eq_true
      rw [hxx]
      exact hl

theorem syncOnePass_second_run_counts (u : Nat) (st : WebhookState)
    (remote : List RemoteSub) (hwf : WfState st) :
    (syncOnePass u (syncOnePass u st remote).1 remote).2 =
      { imported := 0, updated := remote.length, removed := 0 } := by
  have hmem := mem_userSubIds_syncOnePass u st remote hwf
  rw [syncOnePass_counts]
  have hfresh : freshSubs u (syncOnePass u st remote).1 remote = [] := by
    apply List.filter_eq_nil_iff.mpr
    intro s hs
    simp only [decide_eq_true_eq, Decidable.not_not]
    exact (hmem s.id).mpr (List.mem_map.mpr ⟨s, hs, rfl⟩)
  have hmatched : matchedSubs u (syncOnePass u st remote).1 remote = remote := by
    apply List.filter_eq_self.mpr
    intro s hs
    exact decide_eq_true ((hmem s.id).mpr (List.mem_map.mpr ⟨s, hs, rfl⟩))
  have hstale : staleLocals u (syncOnePass u st remote).1 remote = [] := by
    apply List.filter_eq_nil_iff.mpr
    intro w hw
    simp only [decide_eq_true_eq, Decidable.not_not]
    exact (hmem w.subscriptionId).mp (List.mem_map.mpr ⟨w, hw, rfl⟩)
  rw [hfresh, hmatched, hstale]
  rfl

theorem length_filter_mem_comm {l1 l2 : List String} (h1 : l1.Nodup) (h2 : l2.Nodup) :
    (l1.filter (fun x => decide (x ∈ l2))).length =
    (l2.filter (fun x => decide (x ∈ l1))).length := by
  have n1 : (l1.filter (fun x => decide (x ∈ l2))).Nodup := h1.filter _
  have n2 : (l2.filter (fun x => decide (x ∈ l1))).Nodup := h2.filter _
  rw [← List.toFinset_card_of_nodup n1, ← List.toFinset_card_of_nodup n2]
  congr 1
  rw [List.toFinset_filter, List.toFinset_filter]
  ext a
  simp only [Finset.mem_filter, List.mem_toFinset, decide_eq_true_eq]
  exact and_comm

theorem userSubIds_syncOnePass_length (u : Nat) (st : WebhookState)
    (remote : List RemoteSub) (hwf : WfState st) (hlids : (userSubIds u st).Nodup)
    (hrids : (remote.map RemoteSub.id).Nodup) :
    (userSubIds u (syncOnePass u st remote).1).length = remote.length := by
  rw [userSubIds_syncOnePass u st remote hwf, List.length_append, List.length_map,
    List.length_map]
  have hA : ((localsOf u st).filter
      (fun w => decide (w.subscriptionId ∈ remote.map RemoteSub.id))).length =
      ((userSubIds u st).filter
        (fun x => decide (x ∈ remote.map RemoteSub.id))).length := by
    unfold userSubIds
    rw [List.filter_map, List.length_map]
    apply congrArg
    apply List.filter_congr
    intro w _
    rfl
  have hB : (freshSubs u st remote).length =
      ((remote.map RemoteSub.id).filter
        (fun x => decide (x ∉ userSubIds u st))).length := by
    unfold freshSubs
    rw [List.filter_map, List.length_map]
    apply congrArg
    apply List.filter_congr
    intro s _
    rfl
  rw [hA, hB, length_filter_mem_comm hlids hrids]
  have hsplit := List.length_eq_length_filter_add
    (l := remote.map RemoteSub.id) (fun x => decide (x ∈ userSubIds u st))
  have hnot : ((remote.map RemoteSub.id).filter
      (fun x => !(decide (x ∈ userSubIds u st)))).length =
      ((remote.map RemoteSub.id).filter
        (fun x => decide (x ∉ userSubIds u st))).length := by
    apply congrArg
    apply List.filter_congr
    intro x _
    exact decide_not.symm
  rw [List.length_map] at hsplit
  omega

/-! ## Claims C4, C5, C9: reconciliation -/

/-- Remote subscription `a`, used in concrete reconciliation scenarios. -/
def subA : RemoteSub :=
  { id := "a", type := "t", condition := [], callback := "cb"
    status := "enabled", cost := some 1 }

/-- Remote subscription `b`, used in concrete reconciliation scenarios. -/
def subB : RemoteSub :=
  { id := "b", type := "t", condition := [], callback := "cb"
    status := "enabled", cost := some 1 }

/-- Empty webhook table. -/
def emptyWebhookState : WebhookState := { webhooks := [], nextId := 0 }

/-- Provider replies of a two-credential-set pass: config A reports only
subscription `a`, config B only subscription `b`; neither changes between
runs. -/
def twoConfigFetches : List (Option (List (List RemoteSub))) :=
  [some [[subA]], some [[subB]]]

/-- Counterexample to C4: with two credential sets whose (unchanged) remote
lists differ, the second run of the full pass re-imports and re-deletes —
`imported = 2` and `removed = 2`, not `0` and `0`. -/
theorem sync_twice_two_configs_counterexample :
    (syncLoop 1 twoConfigFetches
      (syncLoop 1 twoConfigFetches emptyWebhookState).1).2.imported = 2 ∧
    (syncLoop 1 twoConfigFetches
      (syncLoop 1 twoConfigFetches emptyWebhookState).1).2.removed = 2 ∧
    ¬((syncLoop 1 twoConfigFetches
        (syncLoop 1 twoConfigFetches emptyWebhookState).1).2.imported = 0 ∧
      (syncLoop 1 twoConfigFetches
        (syncLoop 1 twoConfigFetches emptyWebhookState).1).2.removed = 0) := by
  decide

/-- C4 (amended): within one credential set's sub-pass, each remote
subscription absent locally is inserted and counted as imported, each present
one is overwritten and counted as updated even if unchanged, and each local
record absent from the remote list is deleted and counted as removed;
consequently, for a pass over a single credential set with unchanged remote
state and duplicate-free provider ids, the second run reports `imported = 0`,
`removed = 0`, and `updated` equal to the number of remote subscriptions,
which equals the number of pre-existing matching local records (all of which
match).  With several credential sets in one pass the consequence fails, see
the counterexample. -/
theorem sync_second_run_idempotent_single_config :
    ∀ (u : Nat) (st : WebhookState) (pages : List (List RemoteSub)), WfState st →
      (userSubIds u st).Nodup →
      ((fetchRemoteSubscriptions pages).map RemoteSub.id).Nodup →
      (syncLoop u [some pages] st =
        ((syncOnePass u st (fetchRemoteSubscriptions pages)).1,
          (syncOnePass u st (fetchRemoteSubscriptions pages)).2)) ∧
      ((syncOnePass u st (fetchRemoteSubscriptions pages)).2 =
        { imported := (freshSubs u st (fetchRemoteSubscriptions pages)).length
          updated := (matchedSubs u st (fetchRemoteSubscriptions pages)).length
          removed := (staleLocals u st (fetchRemoteSubscriptions pages)).length }) ∧
      ((syncOnePass u (syncOnePass u st (fetchRemoteSubscriptions pages)).1
          (fetchRemoteSubscriptions pages)).2 =
        { imported := 0, updated := (fetchRemoteSubscriptions pages).length
          removed := 0 }) ∧
      (∀ w ∈ localsOf u (syncOnePass u st (fetchRemoteSubscriptions pages)).1,
        w.subscriptionId ∈ (fetchRemoteSubscriptions pages).map RemoteSub.id) ∧
      ((userSubIds u (syncOnePass u st (fetchRemoteSubscriptions pages)).1).length =
        (fetchRemoteSubscriptions pages).length) := by
  intro u st pages hwf hlids hrids
  refine ⟨rfl, syncOnePass_counts u st _, syncOnePass_second_run_counts u st _ hwf,
    ?_, userSubIds_syncOnePass_length u st _ hwf hlids hrids⟩
  intro w hw
  exact (mem_userSubIds_syncOnePass u st (fetchRemoteSubscriptions pages) hwf
    w.subscriptionId).mp (List.mem_map.mpr ⟨w, hw, rfl⟩)

/-- A local cache holding one row for subscription `b`. -/
def stateWithLocalB : WebhookState := { webhooks := [newWebhook 0 1 subB], nextId := 1 }

/-- Evaluation of the amended C4 at concrete inputs: a single-config pass
followed by a second run with unchanged remote state reports zero imports
and removals and one update. -/
theorem c4_single_config_witness :
    (syncOnePass 1 (syncOnePass 1 emptyWebhookState
      (fetchRemoteSubscriptions [[subA]])).1
      (fetchRemoteSubscriptions [[subA]])).2 =
      { imported := 0, updated := 1, removed := 0 } := by
  exact (sync_second_run_idempotent_single_config 1 emptyWebhookState [[subA]]
    ⟨by decide, by decide⟩ (by decide) (by decide)).2.2.1

/-- C5 evaluation at the failing input: with two provider pages (`a` on the
first, `b` on the second) the engine's single unpaginated GET yields only the
first page, not the full accumulated list the spec requires, and a sub-pass
running on it never imports `b` and deletes the local record for `b` even
though the provider still reports `b` on page two. -/
theorem fetchRemote_single_page_at_failing_input :
    fetchRemoteSubscriptions [[subA], [subB]] = [subA] ∧
    fullRemoteSubscriptionList [[subA], [subB]] = [subA, subB] ∧
    subB ∈ fullRemoteSubscriptionList [[subA], [subB]] ∧
    subB ∉ fetchRemoteSubscriptions [[subA], [subB]] ∧
    fetchRemoteSubscriptions [[subA], [subB]] ≠
      fullRemoteSubscriptionList [[subA], [subB]] ∧
    (syncLoop 1 [some [[subA], [subB]]] stateWithLocalB).2.removed = 1 ∧
    "b" ∉ userSubIds 1 (syncLoop 1 [some [[subA], [subB]]] stateWithLocalB).1 := by
  decide

/-- C9: each credential set's sub-pass re-reads the user's entire local
webhook set and deletes every local record absent from that one set's remote
list alone: after the earlier sub-pass the user's cached provider ids are
exactly the earlier remote list's ids, after the later sub-pass they are
exactly the later list's ids regardless of the earlier one, a record
imported or kept in the earlier sub-pass is gone afterwards unless its id is
also in the later list, and the later sub-pass's imported/removed counters
count these re-imports and re-deletions. -/
theorem syncOnePass_multi_config_rebasing :
    ∀ (u : Nat) (st : WebhookState) (ra rb : List RemoteSub), WfState st →
      (∀ x, x ∈ userSubIds u (syncOnePass u st ra).1 ↔ x ∈ ra.map RemoteSub.id) ∧
      (∀ x, x ∈ userSubIds u (syncOnePass u (syncOnePass u st ra).1 rb).1 ↔
        x ∈ rb.map RemoteSub.id) ∧
      (∀ s ∈ ra, s.id ∉ rb.map RemoteSub.id →
        s.id ∉ userSubIds u (syncOnePass u (syncOnePass u st ra).1 rb).1) ∧
      ((syncOnePass u (syncOnePass u st ra).1 rb).2.imported =
        (rb.filter (fun s =>
          decide (s.id ∉ userSubIds u (syncOnePass u st ra).1))).length) ∧
      ((syncOnePass u (syncOnePass u st ra).1 rb).2.removed =
        ((localsOf u (syncOnePass u st ra).1).filter (fun w =>
          decide (w.subscriptionId ∉ rb.map RemoteSub.id))).length) ∧
      (∀ s ∈ ra, s.id ∉ rb.map RemoteSub.id →
        1 ≤ (syncOnePass u (syncOnePass u st ra).1 rb).2.removed) := by
  intro u st ra rb hwf
  have hwf1 : WfState (syncOnePass u st ra).1 := syncOnePass_wf u st ra hwf
  have h1 := mem_userSubIds_syncOnePass u st ra hwf
  have h2 := mem_userSubIds_syncOnePass u (syncOnePass u st ra).1 rb hwf1
  refine ⟨h1, h2, ?_, ?_, ?_, ?_⟩
  · intro s hs hnotb hin
    exact hnotb ((h2 s.id).mp hin)
  · rw [syncOnePass_counts]
    rfl
  · rw [syncOnePass_counts]
    rfl
  · intro s hs hnotb
    have hin : s.id ∈ userSubIds u (syncOnePass u st ra).1 :=
      (h1 s.id).mpr (List.mem_map.mpr ⟨s, hs, rfl⟩)
    rcases List.mem_map.mp hin with ⟨w, hw, hws⟩
    have hstale : w ∈ staleLocals u (syncOnePass u st ra).1 rb := by
      apply List.mem_filter.mpr
      refine ⟨hw, decide_eq_true ?_⟩
      rw [hws]
      exact hnotb
    rw [syncOnePass_counts]
    show 1 ≤ (staleLocals u (syncOnePass u st ra).1 rb).length
    have hne := List.ne_nil_of_mem hstale
    have := List.length_pos.mpr hne
    omega

/-- Evaluation of C9 at concrete inputs: after syncing config A (remote list
`[a]`) and then config B (remote list `[b]`), the record imported for `a`
has been deleted again and the second sub-pass counts one removal. -/
theorem c9_rebasing_witness :
    "a" ∈ userSubIds 1 (syncOnePass 1 emptyWebhookState [subA]).1 ∧
    "a" ∉ userSubIds 1
      (syncOnePass 1 (syncOnePass 1 emptyWebhookState [subA]).1 [subB]).1 ∧
    1 ≤ (syncOnePass 1 (syncOnePass 1 emptyWebhookState [subA]).1 [subB]).2.removed := by
  have h := syncOnePass_multi_config_rebasing 1 emptyWebhookState [subA] [subB]
    ⟨by decide, by decide⟩
  refine ⟨?_, ?_, ?_⟩
  · exact (h.1 ("a")).mpr (by decide)
  · exact h.2.2.1 subA (by decide) (by decide)
  · exact h.2.2.2.2.2 subA (by decide) (by decide)
